import Mathlib

/-!
Verification of the b2again legacy repository synchronization engine.

This file gives a shallow embedding, in Lean 4, of the core of the
mirroring tool: the persistent download-status data model, the
hash-preserving merge, the shard locator, the metadata migration
transforms, the per-item asset-group downloader, and the orchestrator
loop, all translated from the TypeScript sources.  JavaScript string
maps (plain objects used as `Record<string, V>`) are modelled as
association lists that preserve insertion order, matching the
iteration-order semantics of JS objects with string keys.  JS strings
are modelled as Lean strings (sequences of Unicode code points);
status enumerations, which are string-literal unions in the source,
are modelled as strings.  Optional / possibly-`undefined` fields are
modelled with `Option`.
-/

/-- Insertion-ordered string-keyed map, modelling a JS object used as a
`Record<string, V>`: lookup of a key. -/
def alGet {V : Type} (m : List (String × V)) (k : String) : Option V :=
  match m with
  | [] => none
  | p :: rest => if p.1 = k then some p.2 else alGet rest k

/-- Insertion-ordered string-keyed map: set a key, keeping the position
of an existing key and appending a new key at the end, matching JS
property-assignment semantics. -/
def alSet {V : Type} (m : List (String × V)) (k : String) (v : V) :
    List (String × V) :=
  match m with
  | [] => [(k, v)]
  | p :: rest => if p.1 = k then (k, v) :: rest else p :: alSet rest k v

/-- Truthiness of a JS string-valued field that may be `undefined`:
truthy iff present and non-empty. -/
def strTruthy (o : Option String) : Bool :=
  match o with
  | some s => s ≠ ""
  | none => false

/-- JS nullish coalescing `a ?? b` on optional values. -/
def jsCoalesce {A : Type} (a b : Option A) : Option A :=
  match a with
  | some v => some v
  | none => b

/-- Split a character list at every occurrence of a separator
character; the underlying operation of `String.split` on a one
character separator. -/
def splitCharList (c : Char) : List Char → List (List Char)
  | [] => [[]]
  | a :: rest =>
    match splitCharList c rest with
    | [] => [[]]
    | h :: t => if a = c then [] :: h :: t else (a :: h) :: t

/-- Join character lists with a separator character between them; the
underlying operation of joining path segments. -/
def joinCharLists (c : Char) : List (List Char) → List Char
  | [] => []
  | [x] => x
  | x :: y :: t => x ++ c :: joinCharLists c (y :: t)

/-- Join strings with a separator character between them. -/
def intercalateChar (c : Char) (l : List String) : String :=
  String.mk (joinCharLists c (l.map String.data))

/-- Beginning-with relation on strings (`String.startsWith`), at
code-point granularity. -/
def strBeginsWith (pre s : String) : Bool := pre.data.isPrefixOf s.data

/-- Describes an asset downloaded (interface `DownloadFileInfo`):
relative pathname, current status, timestamp, and optional hex message
digests. -/
structure DownloadFileInfo where
  filename : String
  status : String
  when : Nat
  sha256 : Option String
  md5 : Option String
  sha1 : Option String
deriving DecidableEq, Repr

/-- Describes a group of downloaded files (interface
`GroupDownloadInfo`): status, timestamp, optional upstream-update
timestamp, and the per-file map. -/
structure GroupDownloadInfo where
  status : String
  when : Nat
  last_updated_time : Option String
  files : List (String × DownloadFileInfo)
deriving DecidableEq, Repr

/-- Merge a freshly produced per-file record with an optionally stored
one (`mergeDownloadInfo`): filename, timestamp and status are taken
from the recent record, each digest falls back to the stored one when
the recent record did not compute it (`nSha256 ?? exSha256` etc.). -/
def mergeDownloadInfo (existing : Option DownloadFileInfo)
    (recent : DownloadFileInfo) : DownloadFileInfo :=
  let exSha256 := match existing with | some e => e.sha256 | none => none
  let exMd5 := match existing with | some e => e.md5 | none => none
  let exSha1 := match existing with | some e => e.sha1 | none => none
  { filename := recent.filename
    when := recent.when
    status := recent.status
    md5 := jsCoalesce recent.md5 exMd5
    sha256 := jsCoalesce recent.sha256 exSha256
    sha1 := jsCoalesce recent.sha1 exSha1 }

/-- Code point of the lowercase letter z, the boundary of the standard
shard range (`Z_CODE_POINT`). -/
def zCodePoint : Nat := Char.toNat 'z'

/-- The overflow shard directory name for identifiers starting beyond
the lowercase-z boundary: the letter z repeated `prefixLen` times
followed by the overflow suffix. -/
def unicodePrefixDir (prefixLen : Nat) : String :=
  if prefixLen > 0 then String.mk (List.replicate prefixLen 'z') ++ "+" else ""

/-- Joining of two non-degenerate path segments, modelling
`path.join(a, b)` for slash-free, dot-free segments. -/
def joinPath (a b : String) : String :=
  if a = "" then b else a ++ "/" ++ b

/-- The shard locator (`splitFilename`): sends an identifier to its
shard-relative directory name.  The first code point of the name
decides between the standard prefix shard and the overflow shard. -/
def splitFilename (name : String) (prefixLen : Nat) : String :=
  if prefixLen > 0 && name.length > 0 then
    let nameFirst := (name.data.head?.map Char.toNat).getD 0
    if nameFirst != 0 && nameFirst > zCodePoint then
      joinPath (unicodePrefixDir prefixLen) name
    else
      joinPath (String.mk (name.data.take prefixLen)) name
  else name

/-- Parsed absolute URL, modelling the runtime URL class for http-style
URLs: scheme, host, path segments and an optional query.  The path
serializes as a slash before each segment; the root path is the single
empty segment.  Percent-encoding and dot-segment normalization are not
modelled (the references built by this program contain neither). -/
structure JSUrl where
  scheme : String
  host : String
  segments : List String
  query : Option String
deriving DecidableEq, Repr

/-- Origin of a URL: scheme and host. -/
def urlOrigin (u : JSUrl) : String := u.scheme ++ "://" ++ u.host

/-- Serialization of a URL, as the runtime's `URL.toString()`. -/
def urlToString (u : JSUrl) : String :=
  urlOrigin u ++ "/" ++ intercalateChar '/' u.segments ++
    (match u.query with
     | some q => "?" ++ q
     | none => "")

/-- Split a reference string at its first question mark into a path
part and an optional query part. -/
def splitRefQuery (ref : String) : String × Option String :=
  match splitCharList '?' ref.data with
  | [] => (ref, none)
  | [p] => (String.mk p, none)
  | p :: rest => (String.mk p, some (String.mk (joinCharLists '?' rest)))

/-- Resolution of a scheme-less reference against a base URL,
modelling `new URL(ref, base)`: an absolute-path reference replaces
the base path entirely; a relative reference replaces the last segment
of the base path.  The query of the reference, never the base, is
kept. -/
def resolveRef (base : JSUrl) (ref : String) : JSUrl :=
  let pq := splitRefQuery ref
  if strBeginsWith "/" pq.1 then
    { base with
      segments := (splitCharList '/' (pq.1.data.drop 1)).map String.mk, query := pq.2 }
  else
    { base with
      segments := base.segments.dropLast ++ (splitCharList '/' pq.1.data).map String.mk,
      query := pq.2 }

/-- Basename of a URL string (`getBasename`): everything after the
last slash. -/
def getBasename (url : String) : String :=
  ((((splitCharList '/' url.data).map String.mk).getLast?).getD url)

/-- Whether a URL points at the known upstream canonical domain
(`isWordpressOrg`, plugin variant: both http and https accepted). -/
def isWordpressOrgPlugin (url : String) : Bool :=
  strBeginsWith "https://wordpress.org/" url || strBeginsWith "http://wordpress.org/" url

/-- Whether a URL points at the known upstream canonical domain
(`isWordpressOrg`, theme variant: https only). -/
def isWordpressOrgTheme (url : String) : Bool :=
  strBeginsWith "https://wordpress.org/" url

/-- Rewritten banner URL for a plugin (`getBannerUrl`). -/
def getBannerUrl (downloadsBase : JSUrl) (split : String) (url : String) : String :=
  urlToString (resolveRef downloadsBase
    ("/plugins/live/legacy/" ++ split ++ "/banners/" ++ getBasename url))

/-- Rewritten homepage URL for a plugin (`getHomepageUrl`). -/
def getHomepageUrlPlugin (supportBase : JSUrl) (slug : String) : String :=
  urlToString (resolveRef supportBase ("/homepages/plugins/legacy/" ++ slug ++ "/"))

/-- Rewritten preview URL for a plugin (`getPreviewUrl`). -/
def getPreviewUrl (downloadsBase : JSUrl) (split : String) : String :=
  urlToString (resolveRef downloadsBase
    ("/plugins/live/legacy/" ++ split ++ "/preview/index.html"))

/-- Rewritten screenshot URL for a plugin (`getScreenshotUrl`): the
query of the built URL is cleared before serialization. -/
def getScreenshotUrlPlugin (downloadsBase : JSUrl) (split : String) (url : String) : String :=
  let kleen := resolveRef downloadsBase
    ("/plugins/live/legacy/" ++ split ++ "/screenshots/" ++ getBasename url)
  urlToString { kleen with query := none }

/-- Rewritten support URL for a plugin (`getSupportUrl`). -/
def getSupportUrl (supportBase : JSUrl) (slug : String) : String :=
  urlToString (resolveRef supportBase ("/support/plugins/legacy/" ++ slug ++ "/"))

/-- Rewritten archive URL for a plugin (`getZipUrl`). -/
def getZipUrlPlugin (downloadsBase : JSUrl) (split : String) (existing : String) : String :=
  urlToString (resolveRef downloadsBase
    ("/plugins/read-only/legacy/" ++ split ++ "/" ++ getBasename existing))

/-- A field that is `boolean | string` in the upstream JSON (a PHP
null arrives as `false`). -/
inductive BVal
  | bool (v : Bool)
  | str (v : String)
deriving DecidableEq, Repr

/-- Plugin screenshot information (`ScreenshotInfo`). -/
structure ScreenshotInfo where
  src : Option String
  caption : Option String
deriving DecidableEq, Repr

/-- Plugin banner information (`BannersInfo`). -/
structure BannersInfo where
  low : Option BVal
  high : Option BVal
deriving DecidableEq, Repr

/-- The `banners` field of a plugin record: absent, an array (left
untouched by the migration), or a banners object. -/
inductive BannersField
  | absent
  | array
  | record (v : BannersInfo)
deriving DecidableEq, Repr

/-- Upstream plugin record (`PluginInfo`), restricted to the fields
the migration transform reads or writes; all other fields pass
through the transform unchanged. -/
structure PluginInfo where
  slug : Option String
  rating : Option Nat
  ratings : Option (List (String × Nat))
  num_ratings : Option Nat
  support_url : Option String
  support_threads : Option Nat
  support_threads_resolved : Option Nat
  active_installs : Option Nat
  homepage : Option String
  sections : Option (List (String × Option String))
  download_link : Option String
  screenshots : Option (List (String × ScreenshotInfo))
  versions : Option (List (String × Option String))
  banners : BannersField
  preview_link : Option String
deriving DecidableEq, Repr

/-- The all-zero rating histogram written by both migrations. -/
def ratingsZero : List (String × Nat) :=
  [("1", 0), ("2", 0), ("3", 0), ("4", 0), ("5", 0)]

/-- The screenshot substitution map collected by the plugin migration:
pairs of old source URL and rewritten URL, in iteration order. -/
def pluginScreenshotMap (downloadsBase : JSUrl) (split : String)
    (screenshots : List (String × ScreenshotInfo)) : List (String × String) :=
  screenshots.foldl
    (fun acc p =>
      match p.2.src with
      | some s =>
        if s ≠ "" then alSet acc s (getScreenshotUrlPlugin downloadsBase split s) else acc
      | none => acc) []

/-- Redact content from plugin information (`migratePluginInfo`):
zero the volatile counters, rewrite archive/screenshot/banner/preview
URLs onto the mirror, rewrite first-party homepage/support links, drop
the reviews section, and patch screenshot URLs embedded in the
screenshots text section. -/
def migratePluginInfo (downloadsBase supportBase : JSUrl) (split : String)
    (input : PluginInfo) : PluginInfo :=
  let banners1 :=
    match input.banners with
    | BannersField.record v =>
      BannersField.record
        { low :=
            match v.low with
            | some (BVal.str s) => some (BVal.str (getBannerUrl downloadsBase split s))
            | other => other
          high :=
            match v.high with
            | some (BVal.str s) => some (BVal.str (getBannerUrl downloadsBase split s))
            | other => other }
    | other => other
  let download_link1 :=
    match input.download_link with
    | some l => if l ≠ "" then some (getZipUrlPlugin downloadsBase split l) else some l
    | none => none
  let homepage1 :=
    match input.homepage, input.slug with
    | some h, some s =>
      if h ≠ "" && s ≠ "" && isWordpressOrgPlugin h then
        some (getHomepageUrlPlugin supportBase s)
      else some h
    | h, _ => h
  let preview_link1 :=
    match input.preview_link with
    | some p => if p ≠ "" then some (getPreviewUrl downloadsBase split) else some p
    | none => none
  let screenshots1 :=
    match input.screenshots with
    | some m =>
      some (m.map (fun p =>
        match p.2.src with
        | some s =>
          if s ≠ "" then
            (p.1, { p.2 with src := some (getScreenshotUrlPlugin downloadsBase split s) })
          else p
        | none => p))
    | none => none
  let ssMap :=
    match input.screenshots with
    | some m => pluginScreenshotMap downloadsBase split m
    | none => []
  let sections1 :=
    match input.sections with
    | some secs =>
      let secs1 :=
        match alGet secs "reviews" with
        | some (some _) => alSet secs "reviews" none
        | _ => secs
      let secs2 :=
        match alGet secs1 "screenshots" with
        | some (some contents) =>
          alSet secs1 "screenshots"
            (some (ssMap.foldl (fun c p => c.replace p.1 p.2) contents))
        | _ => secs1
      some secs2
    | none => none
  let support_url1 :=
    match input.support_url, input.slug with
    | some h, some s =>
      if h ≠ "" && s ≠ "" && isWordpressOrgPlugin h then
        some (getSupportUrl supportBase s)
      else some h
    | h, _ => h
  let versions1 :=
    match input.versions with
    | some vs =>
      some (vs.map (fun p =>
        if p.1 = "trunk" then (p.1, none)
        else
          match p.2 with
          | some v => if v ≠ "" then (p.1, some (getZipUrlPlugin downloadsBase split v)) else p
          | none => p))
    | none => none
  { input with
    active_installs := some 0
    banners := banners1
    download_link := download_link1
    homepage := homepage1
    num_ratings := some 0
    preview_link := preview_link1
    rating := some 0
    ratings := some ratingsZero
    screenshots := screenshots1
    sections := sections1
    support_threads := some 0
    support_threads_resolved := some 0
    support_url := support_url1
    versions := versions1 }

/-- The value of the plugin migration's INPUT record after the call,
per JS aliasing semantics: the screenshots map itself is shallow-copied
before mutation, but the `ScreenshotInfo` objects inside it are shared
with the input, so the `src` assignment writes through into the input
record.  Every other write in `migratePluginInfo` targets a freshly
copied object. -/
def migratePluginInfoInputAfter (downloadsBase : JSUrl) (split : String)
    (input : PluginInfo) : PluginInfo :=
  match input.screenshots with
  | some m =>
    { input with
      screenshots :=
        some (m.map (fun p =>
          match p.2.src with
          | some s =>
            if s ≠ "" then
              (p.1, { p.2 with src := some (getScreenshotUrlPlugin downloadsBase split s) })
            else p
          | none => p)) }
  | none => input

/-- An expanded theme author (`ThemeAuthor`), restricted to the one
field the migration reads or writes. -/
structure ThemeAuthor where
  user_nicename : Option String
deriving DecidableEq, Repr

/-- The `author` field of a theme record: `string | ThemeAuthor`. -/
inductive AuthorField
  | str (v : String)
  | obj (a : ThemeAuthor)
deriving DecidableEq, Repr

/-- Description of a parent theme (`ThemeParent`). -/
structure ThemeParent where
  slug : Option String
  name : Option String
  homepage : Option String
deriving DecidableEq, Repr

/-- Upstream theme record (`ThemeInfo`), restricted to the fields the
migration transform reads or writes; all other fields pass through
the transform unchanged. -/
structure ThemeInfo where
  slug : Option String
  preview_url : Option String
  author : Option AuthorField
  screenshot_url : Option String
  ratings : Option (List (String × Nat))
  rating : Option Nat
  num_ratings : Option Nat
  reviews_url : Option String
  downloaded : Option Nat
  active_installs : Option Nat
  last_updated_time : Option String
  homepage : Option String
  description : Option String
  sections : Option (List (String × String))
  download_link : Option String
  versions : Option (List (String × String))
  template : Option String
  parent : Option ThemeParent
deriving DecidableEq, Repr

/-- Rewritten homepage URL for a theme (`getHomepageUrl`). -/
def getHomepageUrlTheme (supportBase : JSUrl) (slug : String) : String :=
  urlToString (resolveRef supportBase ("/homepages/themes/legacy/" ++ slug ++ "/"))

/-- Rewritten review URL for a theme (`getReviewUrl`). -/
def getReviewUrl (supportBase : JSUrl) (slug : String) : String :=
  urlToString (resolveRef supportBase ("/reviews/themes/legacy/" ++ slug ++ "/"))

/-- Rewritten screenshot URL for a theme (`getScreenshotUrl`). -/
def getScreenshotUrlTheme (downloadsBase : JSUrl) (themeLiveDir : String)
    (url : String) : String :=
  urlToString (resolveRef downloadsBase
    (themeLiveDir ++ "/screenshots/" ++ getBasename url))

/-- Rewritten archive URL for a theme (`getZipUrl`). -/
def getZipUrlTheme (downloadsBase : JSUrl) (themeReadOnlyDir : String)
    (existing : String) : String :=
  urlToString (resolveRef downloadsBase
    (themeReadOnlyDir ++ "/" ++ getBasename existing))

/-- Author rewriting step of the theme migration: append the upstream
domain to a bare author name or nicename. -/
def migrateAuthor (author : Option AuthorField) : Option AuthorField :=
  match author with
  | some (AuthorField.str a) =>
    if !a.data.contains '@' then some (AuthorField.str (a ++ "@wordpress.org")) else author
  | some (AuthorField.obj a) =>
    match a.user_nicename with
    | some n =>
      if n ≠ "" && !n.data.contains '@' then
        some (AuthorField.obj { a with user_nicename := some (n ++ "@wordpress.org") })
      else author
    | none => author
  | none => none

/-- Description/sections reconciliation step of the theme migration:
move a top-level description into the sections map, or copy the
description from the secondary (API list) record when the primary
record lacks one. -/
def migrateDescription (desc : Option String) (apiDesc : Option String)
    (sections : Option (List (String × String))) :
    Option String × Option (List (String × String)) :=
  match desc with
  | some d =>
    match sections with
    | none => (none, some [("description", d)])
    | some secs =>
      if alGet secs "description" = some d then (none, some secs)
      else
        match alGet secs "description" with
        | some _ => (some d, some secs)
        | none => (some d, some (alSet secs "description" d))
  | none =>
    match apiDesc with
    | some d =>
      match sections with
      | none => (none, some [("description", d)])
      | some secs =>
        match alGet secs "description" with
        | some _ => (none, some secs)
        | none => (none, some (alSet secs "description" d))
    | none => (none, sections)

/-- Redact content from theme information (`migrateThemeInfo`): zero
the volatile counters, rewrite preview/screenshot/archive URLs onto
the mirror, rewrite first-party review/homepage links, reconcile the
description with the secondary record, and propagate parent and
template from the secondary record. -/
def migrateThemeInfo (downloadsBase supportBase : JSUrl)
    (themeLiveDir themeReadOnlyDir : String)
    (input : ThemeInfo) (fromAPI : ThemeInfo) : ThemeInfo :=
  let author1 := migrateAuthor input.author
  let preview_url1 :=
    some (urlToString (resolveRef downloadsBase (themeLiveDir ++ "/preview/index.html")))
  let screenshot_url1 :=
    match input.screenshot_url with
    | some s =>
      if s ≠ "" then some (getScreenshotUrlTheme downloadsBase themeLiveDir s) else some s
    | none => none
  let download_link1 :=
    match input.download_link with
    | some l =>
      if l ≠ "" then some (getZipUrlTheme downloadsBase themeReadOnlyDir l) else some l
    | none => none
  let reviews_url1 :=
    match input.reviews_url, input.slug with
    | some r, some s =>
      if r ≠ "" && s ≠ "" && isWordpressOrgTheme r then some (getReviewUrl supportBase s)
      else some r
    | r, _ => r
  let homepage1 :=
    match input.homepage, input.slug with
    | some h, some s =>
      if h ≠ "" && s ≠ "" && isWordpressOrgTheme h then some (getHomepageUrlTheme supportBase s)
      else some h
    | h, _ => h
  let versions1 :=
    match input.versions with
    | some vs =>
      some (vs.map (fun p => (p.1, getZipUrlTheme downloadsBase themeReadOnlyDir p.2)))
    | none => none
  let ds := migrateDescription input.description fromAPI.description input.sections
  let parent1 :=
    match input.parent, fromAPI.parent with
    | none, some pa => some pa
    | p, _ => p
  let template1 :=
    if !(strTruthy input.template) && strTruthy fromAPI.template then fromAPI.template
    else input.template
  { input with
    author := author1
    preview_url := preview_url1
    screenshot_url := screenshot_url1
    download_link := download_link1
    reviews_url := reviews_url1
    homepage := homepage1
    versions := versions1
    description := ds.1
    sections := ds.2
    parent := parent1
    template := template1
    rating := some 0
    ratings := some ratingsZero
    num_ratings := some 0
    active_installs := some 0
    downloaded := some 0 }

/-- The value of the theme migration's INPUT record after the call,
per JS aliasing semantics: the top-level record is shallow-copied, but
an object-valued `author` field is shared between the copy and the
input, so the `user_nicename` assignment writes through into the
input record.  Every other write in `migrateThemeInfo` targets the
copy or a freshly copied object. -/
def migrateThemeInfoInputAfter (input : ThemeInfo) : ThemeInfo :=
  match input.author with
  | some (AuthorField.obj a) =>
    match a.user_nicename with
    | some n =>
      if n ≠ "" && !n.data.contains '@' then
        { input with
          author := some (AuthorField.obj { a with user_nicename := some (n ++ "@wordpress.org") }) }
      else input
    | none => input
  | _ => input

/-- The metadata record obtained for one theme (`ThemeDownloadResult`,
an Either-like overlap of `DownloadErrorInfo` and `ThemeInfo`),
restricted to the fields the per-item downloader reads.  A field is
`none` when it is absent or not a string (underlying `typeof`
checks); `versions` is `none` when absent or not an object. -/
structure ThemeDownloadResult where
  slug : Option String
  error : Option String
  download_link : Option String
  preview_url : Option String
  screenshot_url : Option String
  versions : Option (List (String × String))
  last_updated_time : Option String
deriving DecidableEq, Repr

/-- Protocol-relative screenshot URLs get an https scheme prepended
before being fetched (some upstream URLs lack a scheme). -/
def fixScreenshotUrl (u : String) : String :=
  if strBeginsWith "//" u then "https:" ++ u else u

/-- The environment a single `processTheme` invocation runs against:
the outcome of fetching each source URL (every asset goes through the
same content fetcher), the clock, and whether an unexpected exception
interrupts the item's body.  An exception is modelled as striking
before any asset work. -/
structure ProcessEnv where
  fetchResult : String → DownloadFileInfo
  now : Nat
  exn : Bool

/-- Per-item downloader (`processTheme`), modelled on its status and
file-map result: validate the metadata record, fetch the primary
archive, and in full mode also the preview page, the screenshot and
every non-trunk version; accumulate the conjunction `ok` exactly as
the source does and derive the final group status from it. -/
def processThemeModel (fullMode : Bool) (info : ThemeDownloadResult)
    (env : ProcessEnv) : GroupDownloadInfo :=
  if env.exn then
    { status := "failed", when := env.now, last_updated_time := none, files := [] }
  else if info.slug.isNone || info.error.isSome || info.download_link.isNone then
    { status := "failed", when := env.now, last_updated_time := none, files := [] }
  else
    let lut := info.last_updated_time
    let fi := env.fetchResult (info.download_link.getD "")
    let ok1 := fi.status = "full"
    let files1 := alSet ([] : List (String × DownloadFileInfo)) fi.filename fi
    if fullMode then
      let st2 :=
        match info.preview_url with
        | some u =>
          let p := env.fetchResult u
          (ok1 && (p.status = "full"), alSet files1 p.filename p)
        | none => (ok1, files1)
      let st3 :=
        match info.screenshot_url with
        | some u =>
          let p := env.fetchResult (fixScreenshotUrl u)
          (st2.1 && (p.status = "full"), alSet st2.2 p.filename p)
        | none => st2
      let st4 :=
        match info.versions with
        | some vs =>
          vs.foldl
            (fun (acc : Bool × List (String × DownloadFileInfo)) (q : String × String) =>
              if q.1 = "trunk" then acc
              else
                let r := env.fetchResult q.2
                (acc.1 && (r.status = "full"), alSet acc.2 r.filename r))
            st3
        | none => st3
      { status := if st4.1 then "full" else "failed", when := env.now,
        last_updated_time := lut, files := st4.2 }
    else
      { status := if ok1 then "partial" else "failed", when := env.now,
        last_updated_time := lut, files := files1 }

/-- Whether a metadata record passes `processTheme`'s validity check:
a slug, no error sentinel, and a download link. -/
def validRecord (info : ThemeDownloadResult) : Bool :=
  info.slug.isSome && info.error.isNone && info.download_link.isSome

/-- The source URLs of the assets `processTheme` attempts for a given
record and mode: the primary archive always; in full mode also the
preview page, the screenshot, and every non-trunk version. -/
def attemptedSources (fullMode : Bool) (info : ThemeDownloadResult) : List String :=
  [info.download_link.getD ""] ++
    (if fullMode then
      (match info.preview_url with | some u => [u] | none => []) ++
      (match info.screenshot_url with | some u => [fixScreenshotUrl u] | none => []) ++
      (match info.versions with
       | some vs => (vs.filter (fun q => q.1 ≠ "trunk")).map (fun q => q.2)
       | none => [])
    else [])

/-- The run flags of the orchestrator that drive the state machine. -/
structure RunFlags where
  full : Bool
  force : Bool
  retry : Bool
  rehash : Bool
deriving DecidableEq, Repr

/-- The staleness condition: both the stored record and the candidate
item carry an upstream-update timestamp string and the stored one is
lexicographically smaller. -/
def staleTrigger (stored itemTime : Option String) : Bool :=
  match stored, itemTime with
  | some s, some i => s < i
  | _, _ => false

/-- The staleness check of the orchestrator: force the stored status
to outdated when the stored upstream-update timestamp is older than
the candidate item's. -/
def applyStaleness (e : GroupDownloadInfo) (itemTime : Option String) :
    GroupDownloadInfo :=
  if staleTrigger e.last_updated_time itemTime then { e with status := "outdated" } else e

/-- The needed/outdated decision of the orchestrator's switch on the
stored status (both flags having been reset to false beforehand):
first component is `needed`, second is `outdated`. -/
def neededOutdated (status : String) (o : RunFlags) : Bool × Bool :=
  if status = "unknown" then (true, false)
  else if status = "partial" then (o.full, false)
  else if status = "full" then (false, false)
  else if status = "uninteresting" then (false, false)
  else if status = "failed" then (o.retry, false)
  else if status = "outdated" then (true, true)
  else (false, false)

/-- Modelled from the spec, section 4.5: the "is this item's work
needed this cycle" table, as a function of the stored status (after
the staleness check) and the run flags; used only to compare the
orchestrator's decision against the table. -/
def neededSpecTable (status : String) (fullMode retryFailed : Bool) : Bool :=
  if status = "unknown" then true
  else if status = "partial" then fullMode
  else if status = "full" then false
  else if status = "uninteresting" then false
  else if status = "failed" then retryFailed
  else if status = "outdated" then true
  else false

/-- The statuses a stored entry can settle at after a run: the listed
closed enumeration minus the transient `unknown`/`outdated`. -/
def settledStatuses : List String := ["partial", "full", "failed", "uninteresting"]

/-- The default entry created on first sight of a slug. -/
def emptyEntry : GroupDownloadInfo :=
  { status := "unknown", when := 0, last_updated_time := none, files := [] }

/-- A candidate item of the theme list, restricted to the fields the
orchestrator loop reads (`slug` is `none` when absent or not a
string). -/
structure ThemeItem where
  slug : Option String
  last_updated_time : Option String
deriving DecidableEq, Repr

/-- Orchestrator loop state: the status map and the counters. -/
structure LoopState where
  map : List (String × GroupDownloadInfo)
  downloads : Nat
  skipped : Nat
  success : Nat
  failure : Nat
  soFar : Nat
deriving DecidableEq, Repr

/-- One iteration of the orchestrator loop (`downloadFiles`, body of
the `for (const item of themeList)` loop): skip items without a slug,
create a default entry for new slugs, apply the staleness check, look
the needed/outdated decision up, and either invoke the per-item
downloader (given here as the oracle `proc`, taking the slug and the
outdated flag) and merge its result into the store, or count the item
as skipped.  `downloads` counts downloader invocations. -/
def downloadFilesStep (o : RunFlags) (proc : String → Bool → GroupDownloadInfo)
    (st : LoopState) (item : ThemeItem) : LoopState :=
  match item.slug with
  | none => st
  | some slug =>
    let m0 := if (alGet st.map slug).isSome then st.map else alSet st.map slug emptyEntry
    match alGet m0 slug with
    | none => st
    | some entry =>
      let entry1 := applyStaleness entry item.last_updated_time
      let dec := neededOutdated entry1.status o
      let m1 := alSet m0 slug entry1
      let soFar1 := st.soFar + 1
      if dec.1 || o.force || o.rehash || dec.2 then
        let g := proc slug dec.2
        let success1 :=
          if g.status = "full" || g.status = "partial" then st.success + 1 else st.success
        let failure1 := if g.status = "failed" then st.failure + 1 else st.failure
        let mergedFiles :=
          g.files.foldl
            (fun acc q => alSet acc q.1 (mergeDownloadInfo (alGet entry1.files q.1) q.2)) []
        let e2 : GroupDownloadInfo :=
          { status := g.status, when := g.when,
            last_updated_time := g.last_updated_time, files := mergedFiles }
        { map := alSet m1 slug e2, downloads := st.downloads + 1, skipped := st.skipped,
          success := success1, failure := failure1, soFar := soFar1 }
      else
        let success1 :=
          if entry1.status = "full" || entry1.status = "partial" then st.success + 1
          else st.success
        let failure1 := if entry1.status = "failed" then st.failure + 1 else st.failure
        { map := m1, downloads := st.downloads, skipped := st.skipped + 1,
          success := success1, failure := failure1, soFar := soFar1 }

/-- The pruning pass run before the main loop: every stored slug
absent from the candidate slug list is transitioned to uninteresting,
with the rest of its entry retained. -/
def markUninteresting (themeSlugs : List String)
    (m : List (String × GroupDownloadInfo)) : List (String × GroupDownloadInfo) :=
  m.map (fun p =>
    if themeSlugs.contains p.1 then p else (p.1, { p.2 with status := "uninteresting" }))

/-- The candidate slug list as built by `main`: the slug of every item
whose slug is truthy, in list order. -/
def extractSlugs : List ThemeItem → List String
  | [] => []
  | it :: rest =>
    (match it.slug with
     | some s => if s ≠ "" then [s] else []
     | none => []) ++ extractSlugs rest

/-- A candidate item is settled in a status map: it has a slug, the
map holds an entry for it, the staleness condition against the item
does not trigger, and with no run flags set the needed/outdated
decision on the entry's status is negative on both counts. -/
def goodForItem (m : List (String × GroupDownloadInfo)) (it : ThemeItem) : Prop :=
  ∃ s e, it.slug = some s ∧ alGet m s = some e ∧
    staleTrigger e.last_updated_time it.last_updated_time = false ∧
    neededOutdated e.status ⟨false, false, false, false⟩ = (false, false)

/-- The orchestrator run (`downloadFiles`) over a loaded status map:
prune, then fold the per-item step over the candidate list.  The
periodic and final saves write the current state out unchanged, so the
state after `n` items is the state saved at the checkpoint after `n`
items. -/
def downloadFilesRun (o : RunFlags) (themeSlugs : List String)
    (proc : String → Bool → GroupDownloadInfo)
    (loaded : List (String × GroupDownloadInfo)) (items : List ThemeItem) : LoopState :=
  items.foldl (downloadFilesStep o proc)
    { map := markUninteresting themeSlugs loaded, downloads := 0, skipped := 0,
      success := 0, failure := 0, soFar := 0 }

/-- Lenient per-entry load (`readDownloadStatus`): a well-formed entry
whose status is not `unknown` is kept as is; anything else is reset to
the default entry. -/
def readEntryModel (e : GroupDownloadInfo) : GroupDownloadInfo :=
  if e.status = "unknown" then emptyEntry else e

/-- Lenient load of a persisted status map (`readDownloadStatus`),
applied to an in-memory well-typed map: each entry goes through the
per-entry load, keys in order. -/
def readStoreMapModel (m : List (String × GroupDownloadInfo)) :
    List (String × GroupDownloadInfo) :=
  m.map (fun p => (p.1, readEntryModel p.2))

/-- State of the target path of one `downloadFile` call. -/
inductive TargetState
  | absent
  | nonRegular
  | regular (bytes : List Nat)
deriving DecidableEq, Repr

/-- The content fetcher (`downloadFile`, streaming variant): decide
whether a download is needed (target missing, target not a regular
file, or force set — in the latter two cases the target is removed
first), and if so open a write stream on the target (the `wx` open
creates the file at once) and fetch; a non-success response returns a
failed record with the created file still in place.  On success the
body is streamed to the file while the three digests are computed
(digest functions passed in as `digest`); a write error yields a
failed record.  If no download is needed but a hash is required, the
existing file is read and hashed.  Returns the file record and the
state of the target path after the call. -/
def downloadFileModel (digest : String → List Nat → String) (t0 : TargetState)
    (force needHash : Bool) (respOk : Bool) (respBody : List Nat)
    (writeErr : Bool) (now : Nat) (targetFile : String) :
    DownloadFileInfo × TargetState :=
  let needed : Bool :=
    match t0 with
    | TargetState.absent => true
    | TargetState.nonRegular => true
    | TargetState.regular _ => force
  let t1 :=
    match t0 with
    | TargetState.regular b => if force then TargetState.absent else TargetState.regular b
    | _ => TargetState.absent
  if needed then
    let t2 := TargetState.regular []
    if !respOk then
      ({ filename := targetFile, status := "failed", when := now,
         sha256 := none, md5 := none, sha1 := none }, t2)
    else if writeErr then
      ({ filename := targetFile, status := "failed", when := now,
         sha256 := none, md5 := none, sha1 := none }, t2)
    else
      ({ filename := targetFile, status := "full", when := now,
         sha256 := some (digest "sha256" respBody), md5 := some (digest "md5" respBody),
         sha1 := some (digest "sha1" respBody) }, TargetState.regular respBody)
  else if needHash then
    match t1 with
    | TargetState.regular b =>
      ({ filename := targetFile, status := "full", when := now,
         sha256 := some (digest "sha256" b), md5 := some (digest "md5" b),
         sha1 := some (digest "sha1" b) }, t1)
    | _ =>
      ({ filename := targetFile, status := "failed", when := now,
         sha256 := none, md5 := none, sha1 := none }, t1)
  else
    ({ filename := targetFile, status := "full", when := now,
       sha256 := none, md5 := none, sha1 := none }, t1)

/-- The default mirror base URL of the tool's configuration, parsed:
a bare origin with root path. -/
def sampleBaseRoot : JSUrl := ⟨"https", "downloads.b2again.org", [""], none⟩

/-- A mirror base URL carrying a non-root path, parsed from the
string form with a subdirectory. -/
def sampleBaseSub : JSUrl := ⟨"https", "mirror.example", ["sub", ""], none⟩

/-- A concrete upstream plugin record used to evaluate the migration
at one input. -/
def samplePlugin : PluginInfo :=
  { slug := some "foo"
    rating := some 7
    ratings := some [("5", 12)]
    num_ratings := some 12
    support_url := none
    support_threads := some 3
    support_threads_resolved := some 2
    active_installs := some 1000
    homepage := none
    sections := none
    download_link := some "https://downloads.wordpress.org/plugin/foo.1.0.zip"
    screenshots := some [("1", ⟨some "https://ps.w.org/foo/screenshot-1.png", none⟩)]
    versions := none
    banners := BannersField.absent
    preview_link := none }

/-- A concrete upstream theme record used to evaluate the migration
at one input. -/
def sampleTheme : ThemeInfo :=
  { slug := some "twentyten"
    preview_url := some "https://wp-themes.com/twentyten/"
    author := some (AuthorField.obj ⟨some "wordpressdotorg"⟩)
    screenshot_url := some "https://ts.w.org/twentyten/screenshot.png"
    ratings := some [("5", 40)]
    rating := some 88
    num_ratings := some 40
    reviews_url := some "https://wordpress.org/support/theme/twentyten/reviews/"
    downloaded := some 5000
    active_installs := some 100
    last_updated_time := some "2024-01-01 00:00:00"
    homepage := some "https://wordpress.org/themes/twentyten/"
    description := none
    sections := none
    download_link := some "https://downloads.wordpress.org/theme/twentyten.4.2.zip"
    versions := some [("1.0", "https://downloads.wordpress.org/theme/twentyten.1.0.zip")]
    template := none
    parent := none }

/-- An empty theme record, used as the secondary (API list) record. -/
def emptyTheme : ThemeInfo :=
  { slug := none
    preview_url := none
    author := none
    screenshot_url := none
    ratings := none
    rating := none
    num_ratings := none
    reviews_url := none
    downloaded := none
    active_installs := none
    last_updated_time := none
    homepage := none
    description := none
    sections := none
    download_link := none
    versions := none
    template := none
    parent := none }

/-! ## Library of facts about the map and string helpers -/

theorem alGet_alSet_self {V : Type} (m : List (String × V)) (k : String) (v : V) :
    alGet (alSet m k v) k = some v := by
  induction m with
  | nil => simp [alSet, alGet]
  | cons p rest ih =>
    by_cases h : p.1 = k
    · simp [alSet, alGet, h]
    · simp [alSet, alGet, h, ih]

theorem alGet_alSet_other {V : Type} (m : List (String × V)) (k k' : String)
    (v : V) (h : k ≠ k') : alGet (alSet m k v) k' = alGet m k' := by
  induction m with
  | nil => simp [alSet, alGet, h]
  | cons p rest ih =>
    by_cases hp : p.1 = k
    · simp [alSet, alGet, hp, h]
    · by_cases hp' : p.1 = k'
      · simp [alSet, alGet, hp, hp', Ne.symm h]
      · simp [alSet, alGet, hp, hp', ih]

theorem alSet_eq_of_get {V : Type} (m : List (String × V)) (k : String) (v : V)
    (h : alGet m k = some v) : alSet m k v = m := by
  induction m with
  | nil => simp [alGet] at h
  | cons p rest ih =>
    obtain ⟨k0, v0⟩ := p
    by_cases hp : k0 = k
    · simp [alGet, hp] at h
      simp [alSet, hp, h]
    · simp [alGet, hp] at h
      simp [alSet, hp, ih h]

theorem alGet_isSome_alSet {V : Type} (m : List (String × V)) (k k' : String)
    (v : V) (h : (alGet m k').isSome) : (alGet (alSet m k v) k').isSome := by
  by_cases hk : k = k'
  · subst hk; simp [alGet_alSet_self]
  · rw [alGet_alSet_other m k k' v hk]; exact h

theorem mem_alSet {V : Type} (m : List (String × V)) (k : String) (v : V)
    (p : String × V) (h : p ∈ alSet m k v) : p ∈ m ∨ p = (k, v) := by
  induction m with
  | nil => simp [alSet] at h; simp [h]
  | cons q rest ih =>
    by_cases hq : q.1 = k
    · simp [alSet, hq] at h
      rcases h with h | h
      · right; simp [h]
      · left; simp [h]
    · simp [alSet, hq] at h
      rcases h with h | h
      · left; simp [h]
      · rcases ih h with h' | h'
        · left; simp [h']
        · right; exact h'

/-! ## Claim C3: hash-preserving merge -/

/-- Claim C3: for every optional existing file record and every recent
file record, the merged record's sha256 equals the recent one's when
that is defined and otherwise falls back to the existing record's, and
likewise independently for md5 and sha1; an existing digest is
retained when the recent result lacks one, and a recent digest always
wins. -/
theorem mergeDownloadInfo_digest_policy (existing : Option DownloadFileInfo)
    (recent : DownloadFileInfo) :
    (∀ y, recent.sha256 = some y → (mergeDownloadInfo existing recent).sha256 = some y) ∧
    (recent.sha256 = none →
      (mergeDownloadInfo existing recent).sha256 = existing.bind (fun e => e.sha256)) ∧
    (∀ y, recent.md5 = some y → (mergeDownloadInfo existing recent).md5 = some y) ∧
    (recent.md5 = none →
      (mergeDownloadInfo existing recent).md5 = existing.bind (fun e => e.md5)) ∧
    (∀ y, recent.sha1 = some y → (mergeDownloadInfo existing recent).sha1 = some y) ∧
    (recent.sha1 = none →
      (mergeDownloadInfo existing recent).sha1 = existing.bind (fun e => e.sha1)) := by
  cases existing <;>
    refine ⟨?_, ?_, ?_, ?_, ?_, ?_⟩ <;>
      first
      | (intro y hy; simp [mergeDownloadInfo, jsCoalesce, hy])
      | (intro hn; simp [mergeDownloadInfo, jsCoalesce, hn])

theorem mergeDownloadInfo_digest_policy_witness :
    (mergeDownloadInfo
      (some ⟨"a/x.zip", "full", 10, some "aa", some "bb", some "cc"⟩)
      ⟨"a/x.zip", "failed", 20, none, some "dd", none⟩).sha256 = some "aa" ∧
    (mergeDownloadInfo
      (some ⟨"a/x.zip", "full", 10, some "aa", some "bb", some "cc"⟩)
      ⟨"a/x.zip", "failed", 20, none, some "dd", none⟩).md5 = some "dd" := by
  constructor
  · have h := (mergeDownloadInfo_digest_policy
      (some ⟨"a/x.zip", "full", 10, some "aa", some "bb", some "cc"⟩)
      ⟨"a/x.zip", "failed", 20, none, some "dd", none⟩).2.1 rfl
    simpa using h
  · exact (mergeDownloadInfo_digest_policy
      (some ⟨"a/x.zip", "full", 10, some "aa", some "bb", some "cc"⟩)
      ⟨"a/x.zip", "failed", 20, none, some "dd", none⟩).2.2.1 "dd" rfl

/-! ## Claim C10: merge takes filename, when and status from the recent record -/

/-- Claim C10: the merged record's filename, timestamp and status come
exactly from the recent record, never the stored one; in particular a
recent failed result replaces a stored full status even while stored
digests are carried over. -/
theorem mergeDownloadInfo_recent_fields (existing : Option DownloadFileInfo)
    (recent : DownloadFileInfo) :
    (mergeDownloadInfo existing recent).filename = recent.filename ∧
    (mergeDownloadInfo existing recent).when = recent.when ∧
    (mergeDownloadInfo existing recent).status = recent.status ∧
    (∀ e, existing = some e → e.status = "full" → recent.status = "failed" →
      (mergeDownloadInfo existing recent).status = "failed") := by
  refine ⟨rfl, rfl, rfl, ?_⟩
  intro e _ _ hrec
  simp [mergeDownloadInfo, hrec]

theorem mergeDownloadInfo_recent_fields_witness :
    (mergeDownloadInfo
      (some ⟨"b/y.zip", "full", 3, some "ee", none, none⟩)
      ⟨"b/y.zip", "failed", 9, none, none, none⟩).status = "failed" :=
  (mergeDownloadInfo_recent_fields
      (some ⟨"b/y.zip", "full", 3, some "ee", none, none⟩)
      ⟨"b/y.zip", "failed", 9, none, none, none⟩).2.2.2
    ⟨"b/y.zip", "full", 3, some "ee", none, none⟩ rfl rfl rfl

/-! ## Claim C6: shard locator rule -/

/-- Claim C6: the shard locator is a pure function obeying the shard
rule: with a positive prefix length and a non-empty identifier whose
first code point is at most that of z, the result is the
prefix-length-take of the identifier joined with the identifier; with
a first code point beyond z, the result is the fixed overflow segment
joined with the identifier; with prefix length zero the result is the
identifier itself. -/
theorem splitFilename_shard_rule (name : String) (n : Nat) :
    (∀ c, 0 < n → name.data.head? = some c → c.toNat ≤ zCodePoint →
      splitFilename name n = joinPath (String.mk (name.data.take n)) name) ∧
    (∀ c, 0 < n → name.data.head? = some c → zCodePoint < c.toNat →
      splitFilename name n = joinPath (unicodePrefixDir n) name) ∧
    (n = 0 → splitFilename name n = name) := by
  refine ⟨?_, ?_, ?_⟩
  · intro c hn hc hle
    have hlen : 0 < name.length := by
      cases hd : name.data with
      | nil => rw [hd] at hc; simp at hc
      | cons a l => simp [String.length, hd]
    have hfirst : (name.data.head?.map Char.toNat).getD 0 = c.toNat := by
      rw [hc]; rfl
    by_cases h0 : c.toNat = 0
    · simp [splitFilename, hn, hlen, hfirst, h0]
    · have : ¬ c.toNat > zCodePoint := by omega
      simp [splitFilename, hn, hlen, hfirst, h0, this]
  · intro c hn hc hgt
    have hlen : 0 < name.length := by
      cases hd : name.data with
      | nil => rw [hd] at hc; simp at hc
      | cons a l => simp [String.length, hd]
    have hfirst : (name.data.head?.map Char.toNat).getD 0 = c.toNat := by
      rw [hc]; rfl
    have h0 : c.toNat ≠ 0 := by
      have : (0 : Nat) < zCodePoint := by decide
      omega
    simp [splitFilename, hn, hlen, hfirst, h0, hgt]
  · intro h0
    simp [splitFilename, h0]

theorem splitFilename_shard_rule_witness :
    (0 < 2 ∧ splitFilename "hello-world" 2 = joinPath "he" "hello-world") ∧
    (splitFilename "ñtheme" 2 = joinPath "zz+" "ñtheme") ∧
    splitFilename "hello-world" 0 = "hello-world" := by
  refine ⟨⟨by decide, ?_⟩, ?_, ?_⟩
  · have h := (splitFilename_shard_rule "hello-world" 2).1 'h' (by decide) rfl (by decide)
    simpa using h
  · have h := (splitFilename_shard_rule "ñtheme" 2).2.1 'ñ' (by decide) rfl (by decide)
    simpa [unicodePrefixDir] using h
  · exact (splitFilename_shard_rule "hello-world" 0).2.2 rfl

/-! ## Claim C1: the needed decision matches the spec table -/

theorem ite_succ_iff (c : Prop) [Decidable c] (d : Nat) :
    (if c then d + 1 else d) = d + 1 ↔ c := by
  split <;> simp_all

theorem downloadFilesStep_downloads_eq (o : RunFlags)
    (proc : String → Bool → GroupDownloadInfo) (st : LoopState) (item : ThemeItem)
    (slug : String) (entry : GroupDownloadInfo)
    (hslug : item.slug = some slug) (hentry : alGet st.map slug = some entry) :
    (downloadFilesStep o proc st item).downloads =
      if (neededOutdated (applyStaleness entry item.last_updated_time).status o).1
          || o.force || o.rehash
          || (neededOutdated (applyStaleness entry item.last_updated_time).status o).2 then
        st.downloads + 1
      else st.downloads := by
  simp only [downloadFilesStep, hslug, hentry, Option.isSome_some, if_true]
  split <;> simp

/-- Claim C1: for an item of the candidate list with a stored entry,
the staleness check forces the stored status to outdated exactly when
the stored upstream-update timestamp is lexicographically below the
item's; on the post-staleness status the orchestrator's needed
decision equals the section 4.5 table; and the downloader is invoked
exactly when the table says needed, or a blanket force/rehash flag is
set, or the status is outdated. -/
theorem downloadFiles_needed_table (o : RunFlags)
    (proc : String → Bool → GroupDownloadInfo) (st : LoopState) (item : ThemeItem)
    (slug : String) (entry : GroupDownloadInfo)
    (hslug : item.slug = some slug)
    (hentry : alGet st.map slug = some entry)
    (hstatus : entry.status ∈
      ["unknown", "partial", "full", "uninteresting", "failed", "outdated"]) :
    ((applyStaleness entry item.last_updated_time).status =
      if staleTrigger entry.last_updated_time item.last_updated_time then "outdated"
      else entry.status) ∧
    ((neededOutdated (applyStaleness entry item.last_updated_time).status o).1 =
      neededSpecTable (applyStaleness entry item.last_updated_time).status o.full o.retry) ∧
    ((downloadFilesStep o proc st item).downloads = st.downloads + 1 ↔
      (neededSpecTable (applyStaleness entry item.last_updated_time).status o.full o.retry
        || o.force || o.rehash
        || ((applyStaleness entry item.last_updated_time).status = "outdated" : Bool)) = true) := by
  have h1 : (applyStaleness entry item.last_updated_time).status =
      if staleTrigger entry.last_updated_time item.last_updated_time then "outdated"
      else entry.status := by
    unfold applyStaleness; split <;> simp
  have h2 : (neededOutdated (applyStaleness entry item.last_updated_time).status o).1 =
      neededSpecTable (applyStaleness entry item.last_updated_time).status o.full o.retry := by
    rw [h1]
    by_cases ht : staleTrigger entry.last_updated_time item.last_updated_time
    · simp [ht, neededOutdated, neededSpecTable]
    · simp only [ht, if_false]
      rcases (by simpa using hstatus :
          entry.status = "unknown" ∨ entry.status = "partial" ∨ entry.status = "full" ∨
          entry.status = "uninteresting" ∨ entry.status = "failed" ∨
          entry.status = "outdated") with h | h | h | h | h | h <;>
        simp [h, neededOutdated, neededSpecTable]
  have h3 : (neededOutdated (applyStaleness entry item.last_updated_time).status o).2 =
      ((applyStaleness entry item.last_updated_time).status = "outdated" : Bool) := by
    rw [h1]
    by_cases ht : staleTrigger entry.last_updated_time item.last_updated_time
    · simp [ht, neededOutdated]
    · simp only [ht, if_false]
      rcases (by simpa using hstatus :
          entry.status = "unknown" ∨ entry.status = "partial" ∨ entry.status = "full" ∨
          entry.status = "uninteresting" ∨ entry.status = "failed" ∨
          entry.status = "outdated") with h | h | h | h | h | h <;>
        simp [h, neededOutdated]
  refine ⟨h1, h2, ?_⟩
  rw [downloadFilesStep_downloads_eq o proc st item slug entry hslug hentry]
  rw [ite_succ_iff]
  rw [h2, h3]

theorem downloadFiles_needed_table_witness :
    (downloadFilesStep ⟨false, false, true, false⟩ (fun _ _ => ⟨"failed", 1, none, []⟩)
      ⟨[("acme", ⟨"failed", 0, none, []⟩)], 0, 0, 0, 0, 0⟩ ⟨some "acme", none⟩).downloads
      = 0 + 1 := by
  have h := (downloadFiles_needed_table ⟨false, false, true, false⟩
      (fun _ _ => ⟨"failed", 1, none, []⟩)
      ⟨[("acme", ⟨"failed", 0, none, []⟩)], 0, 0, 0, 0, 0⟩ ⟨some "acme", none⟩
      "acme" ⟨"failed", 0, none, []⟩ rfl rfl (by simp)).2.2
  exact h.mpr (by decide)

/-! ## Claim C2: group status aggregation of the per-item downloader -/

theorem versionsFold_fst (fetch : String → DownloadFileInfo)
    (vs : List (String × String)) (p : Bool × List (String × DownloadFileInfo)) :
    (vs.foldl
      (fun (acc : Bool × List (String × DownloadFileInfo)) (q : String × String) =>
        if q.1 = "trunk" then acc
        else
          (acc.1 && ((fetch q.2).status = "full"),
            alSet acc.2 (fetch q.2).filename (fetch q.2))) p).1
      = (p.1 && ((vs.filter (fun q => q.1 ≠ "trunk")).map (fun q => q.2)).all
          (fun u => (fetch u).status = "full")) := by
  induction vs generalizing p with
  | nil => simp
  | cons q rest ih =>
    by_cases h : q.1 = "trunk"
    · simp [h, ih]
    · simp [h, ih, Bool.and_assoc]

theorem processThemeModel_status (fullMode : Bool) (info : ThemeDownloadResult)
    (env : ProcessEnv) :
    (processThemeModel fullMode info env).status =
      if env.exn then "failed"
      else if !(validRecord info) then "failed"
      else if (attemptedSources fullMode info).all
          (fun u => (env.fetchResult u).status = "full") then
        (if fullMode then "full" else "partial")
      else "failed" := by
  by_cases hexn : env.exn
  · simp [processThemeModel, hexn]
  · cases hslug : info.slug with
    | none => simp [processThemeModel, validRecord, hexn, hslug]
    | some s =>
      cases herr : info.error with
      | some e => simp [processThemeModel, validRecord, hexn, hslug, herr]
      | none =>
        cases hdl : info.download_link with
        | none => simp [processThemeModel, validRecord, hexn, hslug, herr, hdl]
        | some dl =>
          cases fullMode with
          | false =>
            simp [processThemeModel, validRecord, attemptedSources, hexn, hslug, herr, hdl]
          | true =>
            simp only [processThemeModel, validRecord, attemptedSources,
              hexn, hslug, herr, hdl, Option.isNone_some, Option.isSome_some,
              Option.isSome_none, Option.isNone_none, Bool.false_or, Bool.or_false,
              Bool.and_true, Bool.true_and, Bool.not_true, Bool.not_false,
              Bool.false_eq_true, if_false, if_true, Option.getD_some]
            cases hpv : info.preview_url <;> cases hsc : info.screenshot_url <;>
              cases hvs : info.versions <;>
              refine if_congr ?_ rfl rfl <;>
              (try simp [Bool.and_assoc, and_assoc]) <;>
              (try rw [versionsFold_fst env.fetchResult]) <;>
              (try simp [Bool.and_assoc, and_assoc])


/-- Claim C2: the per-item downloader returns status full exactly when
no exception struck, the metadata record is valid, full mode was
requested and every attempted asset succeeded; partial exactly under
the same conditions with full mode not requested; and failed exactly
when an exception struck, the metadata record is invalid (missing
slug, error sentinel, or missing download link), or some attempted
asset (primary archive or optional asset) did not succeed. -/
theorem processTheme_group_status (fullMode : Bool) (info : ThemeDownloadResult)
    (env : ProcessEnv) :
    ((processThemeModel fullMode info env).status = "full" ↔
      env.exn = false ∧ validRecord info = true ∧ fullMode = true ∧
        ∀ u ∈ attemptedSources fullMode info, (env.fetchResult u).status = "full") ∧
    ((processThemeModel fullMode info env).status = "partial" ↔
      env.exn = false ∧ validRecord info = true ∧ fullMode = false ∧
        ∀ u ∈ attemptedSources fullMode info, (env.fetchResult u).status = "full") ∧
    ((processThemeModel fullMode info env).status = "failed" ↔
      (env.exn = true ∨ validRecord info = false ∨
        ∃ u ∈ attemptedSources fullMode info, (env.fetchResult u).status ≠ "full")) := by
  have hs := processThemeModel_status fullMode info env
  by_cases hexn : env.exn
  · refine ⟨?_, ?_, ?_⟩ <;> rw [hs] <;> simp [hexn]
  · by_cases hval : validRecord info
    · by_cases hall : (attemptedSources fullMode info).all
          (fun u => (env.fetchResult u).status = "full")
      · have hforall := List.all_eq_true.mp hall
        refine ⟨?_, ?_, ?_⟩ <;> rw [hs] <;> cases fullMode <;>
          simp_all
      · have hex : ∃ u ∈ attemptedSources fullMode info,
            (env.fetchResult u).status ≠ "full" := by
          rcases List.all_eq_false.mp (Bool.eq_false_iff.mpr hall) with ⟨u, hu, hp⟩
          exact ⟨u, hu, by simpa using hp⟩
        have hnall : ¬ ∀ u ∈ attemptedSources fullMode info,
            (env.fetchResult u).status = "full" := by
          rcases hex with ⟨u, hu, hne⟩
          intro hf
          exact hne (hf u hu)
        refine ⟨?_, ?_, ?_⟩ <;> rw [hs] <;>
          simp [hexn, hval, hall, hnall, hex]
    · refine ⟨?_, ?_, ?_⟩ <;> rw [hs] <;> simp_all

theorem processTheme_group_status_witness :
    (processThemeModel false
      ⟨some "acme", none, some "https://downloads.example/acme.zip", none, none, none,
        some "2024-01-02"⟩
      ⟨fun u => ⟨u, "full", 4, none, none, none⟩, 4, false⟩).status = "partial" := by
  have h := (processTheme_group_status false
      ⟨some "acme", none, some "https://downloads.example/acme.zip", none, none, none,
        some "2024-01-02"⟩
      ⟨fun u => ⟨u, "full", 4, none, none, none⟩, 4, false⟩).2.1
  exact h.mpr ⟨rfl, by decide, rfl, by intro u hu; rfl⟩

/-! ## Claim C5: migration redaction and URL rewriting -/

theorem isPrefixOf_append_self (l m : List Char) : l.isPrefixOf (l ++ m) = true := by
  induction l with
  | nil => simp [List.isPrefixOf]
  | cons a l ih => simp [List.isPrefixOf, ih]

theorem strBeginsWith_append (a t : String) : strBeginsWith a (a ++ t) = true := by
  simp only [strBeginsWith, String.data_append]
  exact isPrefixOf_append_self a.data t.data

theorem strBeginsWith_urlToString (b u : JSUrl) (hs : u.scheme = b.scheme)
    (hh : u.host = b.host) :
    strBeginsWith (urlOrigin b ++ "/") (urlToString u) = true := by
  have he : urlToString u = (urlOrigin b ++ "/") ++
      (intercalateChar '/' u.segments ++
        (match u.query with
         | some q => "?" ++ q
         | none => "")) := by
    simp only [urlToString, urlOrigin, hs, hh, String.append_assoc]
  rw [he]
  exact strBeginsWith_append _ _

theorem resolveRef_scheme (base : JSUrl) (ref : String) :
    (resolveRef base ref).scheme = base.scheme := by
  simp only [resolveRef]
  split <;> rfl

theorem resolveRef_host (base : JSUrl) (ref : String) :
    (resolveRef base ref).host = base.host := by
  simp only [resolveRef]
  split <;> rfl

theorem strBeginsWith_resolve (base : JSUrl) (ref : String) :
    strBeginsWith (urlOrigin base ++ "/") (urlToString (resolveRef base ref)) = true :=
  strBeginsWith_urlToString base _ (resolveRef_scheme base ref) (resolveRef_host base ref)

theorem strBeginsWith_getScreenshotUrlPlugin (base : JSUrl) (split url : String) :
    strBeginsWith (urlOrigin base ++ "/") (getScreenshotUrlPlugin base split url) = true := by
  unfold getScreenshotUrlPlugin
  exact strBeginsWith_urlToString base _
    (resolveRef_scheme base _) (resolveRef_host base _)

/-- Claim C5 (amended): both migration transforms zero every volatile
counter they carry (rating, the fixed 1..5 histogram, rating count,
install counter, theme download counter, plugin support-thread
counters), and every rewritten archive, screenshot, banner and preview
URL begins with the ORIGIN of the configured mirror base URL (hence
with the base URL itself whenever that is a bare origin); with a base
URL carrying a path, the rewritten URLs do not extend the full base
URL string, see the counterexample. -/
theorem migrations_redact_and_rewrite (downloadsBase supportBase : JSUrl)
    (split themeLiveDir themeReadOnlyDir : String) (p : PluginInfo)
    (t fromAPI : ThemeInfo) :
    (migratePluginInfo downloadsBase supportBase split p).rating = some 0 ∧
    (migratePluginInfo downloadsBase supportBase split p).ratings = some ratingsZero ∧
    (migratePluginInfo downloadsBase supportBase split p).num_ratings = some 0 ∧
    (migratePluginInfo downloadsBase supportBase split p).active_installs = some 0 ∧
    (migratePluginInfo downloadsBase supportBase split p).support_threads = some 0 ∧
    (migratePluginInfo downloadsBase supportBase split p).support_threads_resolved = some 0 ∧
    (∀ l, p.download_link = some l → l ≠ "" →
      ∃ u, (migratePluginInfo downloadsBase supportBase split p).download_link = some u ∧
        strBeginsWith (urlOrigin downloadsBase ++ "/") u = true) ∧
    (∀ s, (migratePluginInfo downloadsBase supportBase split p).preview_link = some s →
      s ≠ "" → strBeginsWith (urlOrigin downloadsBase ++ "/") s = true) ∧
    (∀ v', (migratePluginInfo downloadsBase supportBase split p).banners =
        BannersField.record v' →
      (∀ s, v'.high = some (BVal.str s) →
        strBeginsWith (urlOrigin downloadsBase ++ "/") s = true) ∧
      (∀ s, v'.low = some (BVal.str s) →
        strBeginsWith (urlOrigin downloadsBase ++ "/") s = true)) ∧
    (∀ m', (migratePluginInfo downloadsBase supportBase split p).screenshots = some m' →
      ∀ q ∈ m', ∀ s, q.2.src = some s → s ≠ "" →
        strBeginsWith (urlOrigin downloadsBase ++ "/") s = true) ∧
    (∀ vs', (migratePluginInfo downloadsBase supportBase split p).versions = some vs' →
      ∀ q ∈ vs', q.1 ≠ "trunk" → ∀ s, q.2 = some s → s ≠ "" →
        strBeginsWith (urlOrigin downloadsBase ++ "/") s = true) ∧
    (migrateThemeInfo downloadsBase supportBase themeLiveDir themeReadOnlyDir t
      fromAPI).rating = some 0 ∧
    (migrateThemeInfo downloadsBase supportBase themeLiveDir themeReadOnlyDir t
      fromAPI).ratings = some ratingsZero ∧
    (migrateThemeInfo downloadsBase supportBase themeLiveDir themeReadOnlyDir t
      fromAPI).num_ratings = some 0 ∧
    (migrateThemeInfo downloadsBase supportBase themeLiveDir themeReadOnlyDir t
      fromAPI).active_installs = some 0 ∧
    (migrateThemeInfo downloadsBase supportBase themeLiveDir themeReadOnlyDir t
      fromAPI).downloaded = some 0 ∧
    (∃ u, (migrateThemeInfo downloadsBase supportBase themeLiveDir themeReadOnlyDir t
        fromAPI).preview_url = some u ∧
      strBeginsWith (urlOrigin downloadsBase ++ "/") u = true) ∧
    (∀ s, t.screenshot_url = some s → s ≠ "" →
      ∃ u, (migrateThemeInfo downloadsBase supportBase themeLiveDir themeReadOnlyDir t
          fromAPI).screenshot_url = some u ∧
        strBeginsWith (urlOrigin downloadsBase ++ "/") u = true) ∧
    (∀ l, t.download_link = some l → l ≠ "" →
      ∃ u, (migrateThemeInfo downloadsBase supportBase themeLiveDir themeReadOnlyDir t
          fromAPI).download_link = some u ∧
        strBeginsWith (urlOrigin downloadsBase ++ "/") u = true) ∧
    (∀ vs', (migrateThemeInfo downloadsBase supportBase themeLiveDir themeReadOnlyDir t
        fromAPI).versions = some vs' →
      ∀ q ∈ vs', strBeginsWith (urlOrigin downloadsBase ++ "/") q.2 = true) := by
  refine ⟨?_, ?_, ?_, ?_, ?_, ?_, ?_, ?_, ?_, ?_, ?_, ?_, ?_, ?_, ?_, ?_, ?_, ?_, ?_, ?_⟩
  · simp [migratePluginInfo]
  · simp [migratePluginInfo]
  · simp [migratePluginInfo]
  · simp [migratePluginInfo]
  · simp [migratePluginInfo]
  · simp [migratePluginInfo]
  · intro l hl hne
    refine ⟨getZipUrlPlugin downloadsBase split l, ?_, ?_⟩
    · simp [migratePluginInfo, hl, hne]
    · exact strBeginsWith_resolve downloadsBase _
  · intro s hs hne
    cases hpl : p.preview_link with
    | none => simp [migratePluginInfo, hpl] at hs
    | some pr =>
      by_cases hpr : pr = ""
      · simp [migratePluginInfo, hpl, hpr] at hs
        exact absurd hs.symm hne
      · simp [migratePluginInfo, hpl, hpr] at hs
        rw [← hs]
        exact strBeginsWith_resolve downloadsBase _
  · intro v' hv'
    cases hb : p.banners with
    | absent => simp [migratePluginInfo, hb] at hv'
    | array => simp [migratePluginInfo, hb] at hv'
    | record v =>
      simp [migratePluginInfo, hb] at hv'
      constructor
      · intro s hsv
        rw [← hv'] at hsv
        cases hh : v.high with
        | none => simp [hh] at hsv
        | some bv =>
          cases bv with
          | bool bb => simp [hh] at hsv
          | str ss =>
            simp [hh] at hsv
            rw [← hsv]
            exact strBeginsWith_resolve downloadsBase _
      · intro s hsv
        rw [← hv'] at hsv
        cases hh : v.low with
        | none => simp [hh] at hsv
        | some bv =>
          cases bv with
          | bool bb => simp [hh] at hsv
          | str ss =>
            simp [hh] at hsv
            rw [← hsv]
            exact strBeginsWith_resolve downloadsBase _
  · intro m' hm' q hq s hsrc hne
    cases hsc : p.screenshots with
    | none => simp [migratePluginInfo, hsc] at hm'
    | some m =>
      simp [migratePluginInfo, hsc] at hm'
      rw [← hm'] at hq
      rcases List.mem_map.mp hq with ⟨q0, hq0, hfq⟩
      cases hs0 : q0.2.src with
      | none =>
        rw [← hfq] at hsrc
        simp [hs0] at hsrc
      | some s0 =>
        by_cases h0 : s0 = ""
        · rw [← hfq] at hsrc
          simp [hs0, h0] at hsrc
          exact absurd hsrc.symm hne
        · rw [← hfq] at hsrc
          simp [hs0, h0] at hsrc
          rw [← hsrc]
          exact strBeginsWith_getScreenshotUrlPlugin downloadsBase split s0
  · intro vs' hvs' q hq htr s hqs hne
    cases hv : p.versions with
    | none => simp [migratePluginInfo, hv] at hvs'
    | some vs =>
      simp [migratePluginInfo, hv] at hvs'
      rw [← hvs'] at hq
      rcases List.mem_map.mp hq with ⟨q0, hq0, hfq⟩
      by_cases htrunk : q0.1 = "trunk"
      · rw [← hfq] at htr
        simp [htrunk] at htr
      · cases hq2 : q0.2 with
        | none =>
          rw [← hfq] at hqs
          simp [htrunk, hq2] at hqs
        | some v0 =>
          by_cases h0 : v0 = ""
          · rw [← hfq] at hqs
            simp [htrunk, hq2, h0] at hqs
            exact absurd hqs.symm hne
          · rw [← hfq] at hqs
            simp [htrunk, hq2, h0] at hqs
            rw [← hqs]
            exact strBeginsWith_resolve downloadsBase _
  · simp [migrateThemeInfo]
  · simp [migrateThemeInfo]
  · simp [migrateThemeInfo]
  · simp [migrateThemeInfo]
  · simp [migrateThemeInfo]
  · refine ⟨urlToString (resolveRef downloadsBase (themeLiveDir ++ "/preview/index.html")),
      ?_, strBeginsWith_resolve downloadsBase _⟩
    simp [migrateThemeInfo]
  · intro s hs hne
    refine ⟨getScreenshotUrlTheme downloadsBase themeLiveDir s, ?_, ?_⟩
    · simp [migrateThemeInfo, hs, hne]
    · exact strBeginsWith_resolve downloadsBase _
  · intro l hl hne
    refine ⟨getZipUrlTheme downloadsBase themeReadOnlyDir l, ?_, ?_⟩
    · simp [migrateThemeInfo, hl, hne]
    · exact strBeginsWith_resolve downloadsBase _
  · intro vs' hvs' q hq
    cases hv : t.versions with
    | none => simp [migrateThemeInfo, hv] at hvs'
    | some vs =>
      simp [migrateThemeInfo, hv] at hvs'
      rw [← hvs'] at hq
      rcases List.mem_map.mp hq with ⟨q0, hq0, hfq⟩
      rw [← hfq]
      exact strBeginsWith_resolve downloadsBase _

theorem migrations_redact_and_rewrite_witness :
    ∃ u, (migratePluginInfo sampleBaseRoot sampleBaseRoot "fo/foo"
        samplePlugin).download_link = some u ∧
      strBeginsWith (urlOrigin sampleBaseRoot ++ "/") u = true :=
  (migrations_redact_and_rewrite sampleBaseRoot sampleBaseRoot "fo/foo" "tw/twentyten"
      "tw/twentyten" samplePlugin sampleTheme emptyTheme).2.2.2.2.2.2.1
    "https://downloads.wordpress.org/plugin/foo.1.0.zip" rfl (by decide)

/-- Claim C5, counterexample to the claim as stated: with a configured
mirror base URL that carries a path, the rewritten archive URL begins
with the origin of the base URL but NOT with the base URL string
itself, because the runtime resolves the absolute-path reference
against the origin only. -/
theorem migrations_rewrite_base_counterexample :
    (migratePluginInfo sampleBaseSub sampleBaseSub "fo/foo" samplePlugin).download_link =
      some "https://mirror.example/plugins/read-only/legacy/fo/foo/foo.1.0.zip" ∧
    urlToString sampleBaseSub = "https://mirror.example/sub/" ∧
    strBeginsWith (urlToString sampleBaseSub)
      "https://mirror.example/plugins/read-only/legacy/fo/foo/foo.1.0.zip" = false := by
  refine ⟨?_, rfl, by decide⟩
  decide

/-! ## Claim C8: the migration transforms mutate their input -/

/-- Claim C8 is refuted by the code: by JS aliasing the theme
migration writes the rewritten `user_nicename` through the shared
author object into its input, and the plugin migration writes the
rewritten screenshot `src` through the shared screenshot objects into
its input; at the concrete sample records the input record after the
call differs from the input record before it. -/
theorem migrations_mutate_input :
    migrateThemeInfoInputAfter sampleTheme ≠ sampleTheme ∧
    migratePluginInfoInputAfter sampleBaseRoot "fo/foo" samplePlugin ≠ samplePlugin := by
  constructor <;> decide

/-! ## Claim C4: failed response leaves a file behind -/

/-- Claim C4 is refuted by the code: when a download is needed (here
the target is absent) and the response is not successful, the model of
the streaming `downloadFile` returns a failed record as the claim
says, but an empty regular file exists at the target path afterwards,
because the write stream is opened (creating the file) before the
response status is checked. -/
theorem downloadFile_failed_response_leaves_file :
    (downloadFileModel (fun _ _ => "") TargetState.absent false false false [] false 7
        "themes/read-only/legacy/tw/twentyten/twentyten.1.0.zip").1.status = "failed" ∧
    (downloadFileModel (fun _ _ => "") TargetState.absent false false false [] false 7
        "themes/read-only/legacy/tw/twentyten/twentyten.1.0.zip").2 =
      TargetState.regular [] := by
  constructor <;> rfl

/-! ## Claim C7: the status store never loses entries -/

theorem alGet_alSet {V : Type} (m : List (String × V)) (k k' : String) (v : V) :
    alGet (alSet m k v) k' = if k = k' then some v else alGet m k' := by
  by_cases h : k = k'
  · subst h; simp [alGet_alSet_self]
  · simp [h, alGet_alSet_other m k k' v h]

theorem downloadFilesStep_mono (o : RunFlags) (proc : String → Bool → GroupDownloadInfo)
    (st : LoopState) (item : ThemeItem) (k : String)
    (h : (alGet st.map k).isSome) :
    (alGet (downloadFilesStep o proc st item).map k).isSome := by
  cases hslug : item.slug with
  | none => simpa [downloadFilesStep, hslug] using h
  | some slug =>
    cases hget : alGet st.map slug with
    | some entry =>
      simp only [downloadFilesStep, hslug, hget, Option.isSome_some, if_true,
        apply_ite LoopState.map]
      split_ifs <;> simp_all [alGet_alSet] <;> split_ifs <;> simp_all
    | none =>
      simp only [downloadFilesStep, hslug, hget, Option.isSome_none, Bool.false_eq_true,
        if_false, alGet_alSet_self, apply_ite LoopState.map]
      split_ifs <;> simp_all [alGet_alSet] <;> split_ifs <;> simp_all

theorem downloadFilesFold_mono (o : RunFlags) (proc : String → Bool → GroupDownloadInfo)
    (l : List ThemeItem) :
    ∀ (st : LoopState) (k : String), (alGet st.map k).isSome →
      (alGet (l.foldl (downloadFilesStep o proc) st).map k).isSome := by
  induction l with
  | nil => intro st k h; exact h
  | cons it rest ih =>
    intro st k h
    exact ih _ k (downloadFilesStep_mono o proc st it k h)

theorem alGet_markUninteresting (themeSlugs : List String)
    (m : List (String × GroupDownloadInfo)) (k : String) :
    alGet (markUninteresting themeSlugs m) k =
      (alGet m k).map
        (fun e =>
          if themeSlugs.contains k then e else { e with status := "uninteresting" }) := by
  induction m with
  | nil => simp [markUninteresting, alGet]
  | cons p rest ih =>
    obtain ⟨k0, v0⟩ := p
    by_cases hp : k0 = k
    · subst hp
      by_cases hc : k0 ∈ themeSlugs <;>
        simp [markUninteresting, alGet, hc]
    · by_cases hc : k0 ∈ themeSlugs <;>
        simpa [markUninteresting, alGet, hp, hc] using ih

/-- Claim C7: the status store never loses entries.  Every slug
present in the loaded status map is still present in the map after any
number of loop iterations, hence at every checkpoint save and at the
final save; a slug absent from the candidate slug list has its status
set to uninteresting before the main loop with the rest of its entry,
including its file map, retained; and a single loop iteration never
removes a map entry. -/
theorem statusStore_never_loses_entries (o : RunFlags)
    (proc : String → Bool → GroupDownloadInfo) (themeSlugs : List String)
    (loaded : List (String × GroupDownloadInfo)) (items : List ThemeItem) :
    (∀ n k, (alGet loaded k).isSome →
      (alGet (downloadFilesRun o themeSlugs proc loaded (items.take n)).map k).isSome) ∧
    (∀ k e, alGet loaded k = some e → k ∉ themeSlugs →
      alGet (markUninteresting themeSlugs loaded) k =
        some { e with status := "uninteresting" }) ∧
    (∀ (st : LoopState) (it : ThemeItem) (k : String), (alGet st.map k).isSome →
      (alGet (downloadFilesStep o proc st it).map k).isSome) := by
  refine ⟨?_, ?_, ?_⟩
  · intro n k h
    apply downloadFilesFold_mono
    rw [alGet_markUninteresting]
    simpa using h
  · intro k e hget hcon
    rw [alGet_markUninteresting, hget]
    simp [hcon]
  · intro st it k h
    exact downloadFilesStep_mono o proc st it k h

theorem statusStore_never_loses_entries_witness :
    ((alGet
      (downloadFilesRun ⟨false, false, false, false⟩ ["acme"] (fun _ _ => emptyEntry)
        [("old-slug", ⟨"full", 3, none, []⟩)]
        (List.take 1 [⟨some "acme", none⟩])).map "old-slug").isSome) ∧
    alGet (markUninteresting ["acme"] [("old-slug", ⟨"full", 3, none, []⟩)]) "old-slug" =
      some ⟨"uninteresting", 3, none, []⟩ := by
  constructor
  · exact (statusStore_never_loses_entries ⟨false, false, false, false⟩
        (fun _ _ => emptyEntry) ["acme"] [("old-slug", ⟨"full", 3, none, []⟩)]
        [⟨some "acme", none⟩]).1 1 "old-slug" (by rfl)
  · have h := (statusStore_never_loses_entries ⟨false, false, false, false⟩
        (fun _ _ => emptyEntry) ["acme"] [("old-slug", ⟨"full", 3, none, []⟩)]
        [⟨some "acme", none⟩]).2.1 "old-slug" ⟨"full", 3, none, []⟩ rfl (by decide)
    simpa using h

/-! ## Claim C9: idempotence of the orchestrator -/

theorem staleTrigger_self (t : Option String) : staleTrigger t t = false := by
  cases t with
  | none => rfl
  | some s => simp [staleTrigger]

theorem applyStaleness_eq_of_false (e : GroupDownloadInfo) (t : Option String)
    (h : staleTrigger e.last_updated_time t = false) : applyStaleness e t = e := by
  simp [applyStaleness, h]

theorem status3_decision (s : String)
    (h : s ∈ (["full", "partial", "failed"] : List String)) :
    neededOutdated s ⟨false, false, false, false⟩ = (false, false) := by
  rcases (by simpa using h : s = "full" ∨ s = "partial" ∨ s = "failed") with h | h | h <;>
    simp [h, neededOutdated]

theorem decision_not_unknown (e : GroupDownloadInfo)
    (h : neededOutdated e.status ⟨false, false, false, false⟩ = (false, false)) :
    e.status ≠ "unknown" := by
  intro hu
  simp [neededOutdated, hu] at h

theorem setStatus_self (e : GroupDownloadInfo) (s : String) (h : e.status = s) :
    ({ e with status := s } : GroupDownloadInfo) = e := by
  cases e
  simp_all

theorem mapIdOfEq {α : Type} (l : List α) (f : α → α) (h : ∀ a ∈ l, f a = a) :
    l.map f = l := by
  induction l with
  | nil => rfl
  | cons a rest ih =>
    simp only [List.map_cons]
    rw [h a (by simp), ih (fun b hb => h b (by simp [hb]))]

theorem step_skip_on_good (proc : String → Bool → GroupDownloadInfo)
    (st : LoopState) (it : ThemeItem)
    (hg : goodForItem st.map it) :
    (downloadFilesStep ⟨false, false, false, false⟩ proc st it).map = st.map ∧
    (downloadFilesStep ⟨false, false, false, false⟩ proc st it).downloads = st.downloads ∧
    (downloadFilesStep ⟨false, false, false, false⟩ proc st it).skipped = st.skipped + 1 := by
  obtain ⟨s, e, hslug, hget, htrig, hdec⟩ := hg
  have h1 : applyStaleness e it.last_updated_time = e :=
    applyStaleness_eq_of_false e it.last_updated_time htrig
  simp only [downloadFilesStep, hslug, hget, Option.isSome_some, if_true, h1, hdec]
  simp [alSet_eq_of_get st.map s e hget]

theorem fold_skips (proc : String → Bool → GroupDownloadInfo) :
    ∀ (l : List ThemeItem) (st : LoopState),
      (∀ it ∈ l, goodForItem st.map it) →
      ((l.foldl (downloadFilesStep ⟨false, false, false, false⟩ proc) st).map = st.map ∧
       (l.foldl (downloadFilesStep ⟨false, false, false, false⟩ proc) st).downloads =
         st.downloads ∧
       (l.foldl (downloadFilesStep ⟨false, false, false, false⟩ proc) st).skipped =
         st.skipped + l.length) := by
  intro l
  induction l with
  | nil => intro st _; exact ⟨rfl, rfl, rfl⟩
  | cons it rest ih =>
    intro st hgood
    have hstep := step_skip_on_good proc st it (hgood it (by simp))
    have hrest := ih (downloadFilesStep ⟨false, false, false, false⟩ proc st it)
      (by
        intro j hj
        rw [hstep.1]
        exact hgood j (by simp [hj]))
    refine ⟨?_, ?_, ?_⟩
    · rw [List.foldl_cons, hrest.1, hstep.1]
    · rw [List.foldl_cons, hrest.2.1, hstep.2.1]
    · rw [List.foldl_cons, hrest.2.2, hstep.2.2]
      simp [List.length_cons]
      omega

theorem downloadFilesStep_get_other (o : RunFlags)
    (proc : String → Bool → GroupDownloadInfo) (st : LoopState) (item : ThemeItem)
    (slug : String) (hslug : item.slug = some slug) (k : String) (hk : k ≠ slug) :
    alGet (downloadFilesStep o proc st item).map k = alGet st.map k := by
  cases hget : alGet st.map slug with
  | some entry =>
    simp only [downloadFilesStep, hslug, hget, Option.isSome_some, if_true,
      apply_ite LoopState.map]
    split_ifs <;> simp_all [alGet_alSet, Ne.symm hk]
  | none =>
    simp only [downloadFilesStep, hslug, hget, Option.isSome_none, Bool.false_eq_true,
      if_false, alGet_alSet_self, apply_ite LoopState.map]
    split_ifs <;> simp_all [alGet_alSet, Ne.symm hk]

theorem step_establish_good (proc : String → Bool → GroupDownloadInfo)
    (hst : ∀ s b, (proc s b).status ∈ (["full", "partial", "failed"] : List String))
    (st : LoopState) (it : ThemeItem) (s : String)
    (hslug : it.slug = some s)
    (hlut : ∀ b, (proc s b).last_updated_time = it.last_updated_time) :
    goodForItem (downloadFilesStep ⟨false, false, false, false⟩ proc st it).map it := by
  cases hget : alGet st.map s with
  | none =>
    have h1 : applyStaleness emptyEntry it.last_updated_time = emptyEntry :=
      applyStaleness_eq_of_false _ _ (by cases it.last_updated_time <;> rfl)
    simp only [downloadFilesStep, hslug, hget, Option.isSome_none, Bool.false_eq_true,
      if_false, alGet_alSet_self, h1]
    simp only [emptyEntry, neededOutdated, if_true, Bool.or_false, Bool.false_or,
      reduceIte]
    refine ⟨s, _, hslug, alGet_alSet_self _ _ _, ?_, ?_⟩
    · simp only [hlut]
      exact staleTrigger_self _
    · simpa using status3_decision _ (hst s false)
  | some entry =>
    by_cases htrig : staleTrigger entry.last_updated_time it.last_updated_time
    · have h1 : applyStaleness entry it.last_updated_time =
          { entry with status := "outdated" } := by
        simp [applyStaleness, htrig]
      simp only [downloadFilesStep, hslug, hget, Option.isSome_some, if_true, h1]
      simp only [neededOutdated, reduceIte]
      refine ⟨s, _, hslug, alGet_alSet_self _ _ _, ?_, ?_⟩
      · simp only [hlut]
        exact staleTrigger_self _
      · simpa using status3_decision _ (hst s true)
    · have htrig' : staleTrigger entry.last_updated_time it.last_updated_time = false :=
        by simpa using htrig
      have h1 : applyStaleness entry it.last_updated_time = entry :=
        applyStaleness_eq_of_false _ _ htrig'
      rcases hd : neededOutdated entry.status ⟨false, false, false, false⟩ with ⟨d1, d2⟩
      cases d1 <;> cases d2
      · -- skip: decision (false, false)
        simp only [downloadFilesStep, hslug, hget, Option.isSome_some, if_true, h1, hd]
        simp only [Bool.or_false, Bool.false_or, Bool.or_self, Bool.false_eq_true, if_false]
        exact ⟨s, entry, hslug, by rw [alGet_alSet_self], htrig', hd⟩
      · simp only [downloadFilesStep, hslug, hget, Option.isSome_some, if_true, h1, hd]
        simp only [Bool.or_false, Bool.false_or, Bool.or_true, if_true]
        refine ⟨s, _, hslug, alGet_alSet_self _ _ _, ?_, ?_⟩
        · simp only [hlut]
          exact staleTrigger_self _
        · simpa using status3_decision _ (hst s true)
      · simp only [downloadFilesStep, hslug, hget, Option.isSome_some, if_true, h1, hd]
        simp only [Bool.or_false, Bool.false_or, Bool.true_or, if_true]
        refine ⟨s, _, hslug, alGet_alSet_self _ _ _, ?_, ?_⟩
        · simp only [hlut]
          exact staleTrigger_self _
        · simpa using status3_decision _ (hst s false)
      · simp only [downloadFilesStep, hslug, hget, Option.isSome_some, if_true, h1, hd]
        simp only [Bool.or_false, Bool.false_or, Bool.true_or, Bool.or_true, if_true]
        refine ⟨s, _, hslug, alGet_alSet_self _ _ _, ?_, ?_⟩
        · simp only [hlut]
          exact staleTrigger_self _
        · simpa using status3_decision _ (hst s true)

theorem step_transfer_good (proc : String → Bool → GroupDownloadInfo)
    (hst : ∀ s b, (proc s b).status ∈ (["full", "partial", "failed"] : List String))
    (st : LoopState) (it j : ThemeItem) (s : String)
    (hslug_it : it.slug = some s) (hslug_j : j.slug = some s)
    (hlut_it : ∀ b, (proc s b).last_updated_time = it.last_updated_time)
    (hg : goodForItem st.map it) :
    goodForItem (downloadFilesStep ⟨false, false, false, false⟩ proc st j).map it := by
  obtain ⟨s0, e, hslug0, hget, htrig, hdec⟩ := hg
  have hs0 : s0 = s := Option.some.inj (hslug0.symm.trans hslug_it)
  subst hs0
  by_cases htrigj : staleTrigger e.last_updated_time j.last_updated_time
  · have h1 : applyStaleness e j.last_updated_time = { e with status := "outdated" } := by
      simp [applyStaleness, htrigj]
    simp only [downloadFilesStep, hslug_j, hget, Option.isSome_some, if_true, h1]
    simp only [neededOutdated, reduceIte]
    refine ⟨s0, _, hslug_it, alGet_alSet_self _ _ _, ?_, ?_⟩
    · simp only [hlut_it]
      exact staleTrigger_self _
    · simpa using status3_decision _ (hst s0 true)
  · have htrigj' : staleTrigger e.last_updated_time j.last_updated_time = false := by
      simpa using htrigj
    have h1 : applyStaleness e j.last_updated_time = e :=
      applyStaleness_eq_of_false _ _ htrigj'
    simp only [downloadFilesStep, hslug_j, hget, Option.isSome_some, if_true, h1, hdec]
    simp only [Bool.or_false, Bool.false_or, Bool.or_self, Bool.false_eq_true, if_false]
    exact ⟨s0, e, hslug_it, by rw [alGet_alSet_self], htrig, hdec⟩

theorem fold_preserve_good (proc : String → Bool → GroupDownloadInfo)
    (hst : ∀ s b, (proc s b).status ∈ (["full", "partial", "failed"] : List String)) :
    ∀ (l : List ThemeItem) (st : LoopState) (it : ThemeItem) (s : String),
      it.slug = some s →
      (∀ b, (proc s b).last_updated_time = it.last_updated_time) →
      goodForItem st.map it →
      goodForItem ((l.foldl (downloadFilesStep ⟨false, false, false, false⟩ proc) st).map)
        it := by
  intro l
  induction l with
  | nil => intro st it s _ _ hg; exact hg
  | cons j rest ih =>
    intro st it s hslug hlut hg
    rw [List.foldl_cons]
    apply ih _ it s hslug hlut
    cases hjslug : j.slug with
    | none => simpa [downloadFilesStep, hjslug] using hg
    | some sj =>
      by_cases hsj : sj = s
      · subst hsj
        exact step_transfer_good proc hst st it j sj hslug hjslug hlut hg
      · obtain ⟨s0, e, hslug0, hget, htrig, hdec⟩ := hg
        have hs0 : s0 = s := Option.some.inj (hslug0.symm.trans hslug)
        subst hs0
        refine ⟨s0, e, hslug0, ?_, htrig, hdec⟩
        rw [downloadFilesStep_get_other _ proc st j sj hjslug s0 (fun hne => hsj hne.symm)]
        exact hget

theorem run1_all_good (proc : String → Bool → GroupDownloadInfo)
    (hst : ∀ s b, (proc s b).status ∈ (["full", "partial", "failed"] : List String))
    (themeSlugs : List String) (loaded : List (String × GroupDownloadInfo))
    (items : List ThemeItem)
    (hlut : ∀ it ∈ items, ∀ s, it.slug = some s →
      ∀ b, (proc s b).last_updated_time = it.last_updated_time)
    (hs : ∀ it ∈ items, ∃ s, it.slug = some s ∧ s ≠ "") :
    ∀ it ∈ items,
      goodForItem
        (downloadFilesRun ⟨false, false, false, false⟩ themeSlugs proc loaded items).map
        it := by
  intro it hit
  obtain ⟨l1, l2, hl⟩ := List.append_of_mem hit
  obtain ⟨s, hslug, hne⟩ := hs it hit
  have hlut_it := hlut it hit s hslug
  subst hl
  rw [downloadFilesRun, List.foldl_append, List.foldl_cons]
  apply fold_preserve_good proc hst l2 _ it s hslug hlut_it
  exact step_establish_good proc hst _ it s hslug hlut_it

theorem alGet_none_iff_keys {V : Type} (m : List (String × V)) (k : String) :
    alGet m k = none ↔ k ∉ m.map Prod.fst := by
  induction m with
  | nil => simp [alGet]
  | cons p rest ih =>
    by_cases hp : p.1 = k
    · simp [alGet, hp]
    · simp [alGet, hp, ih, Ne.symm hp]

theorem alSet_keys {V : Type} (m : List (String × V)) (k : String) (v : V) :
    (alSet m k v).map Prod.fst =
      if k ∈ m.map Prod.fst then m.map Prod.fst else m.map Prod.fst ++ [k] := by
  induction m with
  | nil => simp [alSet]
  | cons p rest ih =>
    by_cases hp : p.1 = k
    · simp [alSet, hp]
    · by_cases hk : k ∈ rest.map Prod.fst <;>
        simp [alSet, hp, hk, ih, Ne.symm hp]

theorem alSet_keys_nodup {V : Type} (m : List (String × V)) (k : String) (v : V)
    (h : (m.map Prod.fst).Nodup) : ((alSet m k v).map Prod.fst).Nodup := by
  rw [alSet_keys]
  by_cases hk : k ∈ m.map Prod.fst
  · simpa [hk] using h
  · simp [hk, h, List.nodup_append]

theorem downloadFilesStep_keys_nodup (o : RunFlags)
    (proc : String → Bool → GroupDownloadInfo) (st : LoopState) (item : ThemeItem)
    (h : (st.map.map Prod.fst).Nodup) :
    (((downloadFilesStep o proc st item).map).map Prod.fst).Nodup := by
  cases hslug : item.slug with
  | none => simpa [downloadFilesStep, hslug] using h
  | some slug =>
    cases hget : alGet st.map slug with
    | some entry =>
      simp only [downloadFilesStep, hslug, hget, Option.isSome_some, if_true,
        apply_ite LoopState.map]
      split_ifs
      · exact alSet_keys_nodup _ _ _ (alSet_keys_nodup _ _ _ h)
      · exact alSet_keys_nodup _ _ _ h
    | none =>
      simp only [downloadFilesStep, hslug, hget, Option.isSome_none, Bool.false_eq_true,
        if_false, alGet_alSet_self, apply_ite LoopState.map]
      split_ifs
      · exact alSet_keys_nodup _ _ _ (alSet_keys_nodup _ _ _ (alSet_keys_nodup _ _ _ h))
      · exact alSet_keys_nodup _ _ _ (alSet_keys_nodup _ _ _ h)

theorem fold_keys_nodup (o : RunFlags) (proc : String → Bool → GroupDownloadInfo)
    (l : List ThemeItem) :
    ∀ (st : LoopState), (st.map.map Prod.fst).Nodup →
      (((l.foldl (downloadFilesStep o proc) st).map).map Prod.fst).Nodup := by
  induction l with
  | nil => intro st h; exact h
  | cons it rest ih =>
    intro st h
    exact ih _ (downloadFilesStep_keys_nodup o proc st it h)

theorem markUninteresting_keys (themeSlugs : List String)
    (m : List (String × GroupDownloadInfo)) :
    (markUninteresting themeSlugs m).map Prod.fst = m.map Prod.fst := by
  induction m with
  | nil => rfl
  | cons p rest ih =>
    by_cases hc : p.1 ∈ themeSlugs <;>
      simp [markUninteresting, hc] <;>
      simpa [markUninteresting] using ih

theorem alGet_of_mem_nodup {V : Type} (m : List (String × V))
    (h : (m.map Prod.fst).Nodup) (p : String × V) (hp : p ∈ m) :
    alGet m p.1 = some p.2 := by
  induction m with
  | nil => simp at hp
  | cons q rest ih =>
    rcases List.mem_cons.mp hp with hq | hq
    · subst hq
      simp [alGet]
    · have hq1 : q.1 ≠ p.1 := by
        intro he
        have : p.1 ∈ rest.map Prod.fst := List.mem_map.mpr ⟨p, hq, rfl⟩
        rw [← he] at this
        exact (List.nodup_cons.mp h).1 this
      simp only [alGet, hq1, if_false]
      exact ih (List.nodup_cons.mp h).2 hq

theorem mem_markUninteresting (themeSlugs : List String)
    (m : List (String × GroupDownloadInfo)) (p : String × GroupDownloadInfo)
    (hp : p ∈ markUninteresting themeSlugs m) :
    p.1 ∈ themeSlugs ∨ p.2.status = "uninteresting" := by
  rcases List.mem_map.mp hp with ⟨p0, _, hf⟩
  by_cases hc : p0.1 ∈ themeSlugs
  · left
    rw [← hf]
    simp [hc]
  · right
    rw [← hf]
    simp [hc]

theorem mem_downloadFilesStep (o : RunFlags)
    (proc : String → Bool → GroupDownloadInfo) (st : LoopState) (item : ThemeItem)
    (p : String × GroupDownloadInfo)
    (hp : p ∈ (downloadFilesStep o proc st item).map) :
    p ∈ st.map ∨ ∃ s, item.slug = some s ∧ p.1 = s := by
  cases hslug : item.slug with
  | none =>
    left
    simpa [downloadFilesStep, hslug] using hp
  | some slug =>
    cases hget : alGet st.map slug with
    | some entry =>
      simp only [downloadFilesStep, hslug, hget, Option.isSome_some, if_true,
        apply_ite LoopState.map] at hp
      split_ifs at hp
      · rcases mem_alSet _ _ _ _ hp with hp1 | hp1
        · rcases mem_alSet _ _ _ _ hp1 with hp2 | hp2
          · exact Or.inl hp2
          · exact Or.inr ⟨slug, rfl, by simp [hp2]⟩
        · exact Or.inr ⟨slug, rfl, by simp [hp1]⟩
      · rcases mem_alSet _ _ _ _ hp with hp1 | hp1
        · exact Or.inl hp1
        · exact Or.inr ⟨slug, rfl, by simp [hp1]⟩
    | none =>
      simp only [downloadFilesStep, hslug, hget, Option.isSome_none, Bool.false_eq_true,
        if_false, alGet_alSet_self, apply_ite LoopState.map] at hp
      split_ifs at hp
      · rcases mem_alSet _ _ _ _ hp with hp1 | hp1
        · rcases mem_alSet _ _ _ _ hp1 with hp2 | hp2
          · rcases mem_alSet _ _ _ _ hp2 with hp3 | hp3
            · exact Or.inl hp3
            · exact Or.inr ⟨slug, rfl, by simp [hp3]⟩
          · exact Or.inr ⟨slug, rfl, by simp [hp2]⟩
        · exact Or.inr ⟨slug, rfl, by simp [hp1]⟩
      · rcases mem_alSet _ _ _ _ hp with hp1 | hp1
        · rcases mem_alSet _ _ _ _ hp1 with hp2 | hp2
          · exact Or.inl hp2
          · exact Or.inr ⟨slug, rfl, by simp [hp2]⟩
        · exact Or.inr ⟨slug, rfl, by simp [hp1]⟩

theorem fold_mem_inv (o : RunFlags) (proc : String → Bool → GroupDownloadInfo)
    (themeSlugs : List String) (l : List ThemeItem)
    (hl : ∀ j ∈ l, ∀ sj, j.slug = some sj → sj ∈ themeSlugs) :
    ∀ (st : LoopState),
      (∀ p ∈ st.map, p.1 ∈ themeSlugs ∨ p.2.status = "uninteresting") →
      ∀ p ∈ (l.foldl (downloadFilesStep o proc) st).map,
        p.1 ∈ themeSlugs ∨ p.2.status = "uninteresting" := by
  induction l with
  | nil => intro st h; exact h
  | cons j rest ih =>
    intro st h
    refine ih (fun j' hj' => hl j' (by simp [hj'])) _ ?_
    intro p hp
    rcases mem_downloadFilesStep o proc st j p hp with hp1 | ⟨s, hjs, hps⟩
    · exact h p hp1
    · exact Or.inl (hps ▸ hl j (by simp) s hjs)

theorem mem_extractSlugs_of (items : List ThemeItem) :
    ∀ it ∈ items, ∀ s, it.slug = some s → s ≠ "" → s ∈ extractSlugs items := by
  induction items with
  | nil => intro it hit; simp at hit
  | cons j rest ih =>
    intro it hit s hslug hne
    rcases List.mem_cons.mp hit with hq | hq
    · subst hq
      simp [extractSlugs, hslug, hne]
    · simp only [extractSlugs, List.mem_append]
      exact Or.inr (ih it hq s hslug hne)

theorem of_mem_extractSlugs (items : List ThemeItem) :
    ∀ s ∈ extractSlugs items, ∃ it ∈ items, it.slug = some s := by
  induction items with
  | nil => intro s hs; simp [extractSlugs] at hs
  | cons j rest ih =>
    intro s hs
    simp only [extractSlugs, List.mem_append] at hs
    rcases hs with hs | hs
    · refine ⟨j, by simp, ?_⟩
      cases hj : j.slug with
      | none => simp [hj] at hs
      | some sj =>
        by_cases hne : sj = ""
        · simp [hj, hne] at hs
        · simp [hj, hne] at hs
          simp [hs]
    · rcases ih s hs with ⟨it, hit, hslug⟩
      exact ⟨it, by simp [hit], hslug⟩

theorem markUninteresting_id (themeSlugs : List String)
    (m : List (String × GroupDownloadInfo))
    (h : ∀ p ∈ m, p.1 ∈ themeSlugs ∨ p.2.status = "uninteresting") :
    markUninteresting themeSlugs m = m := by
  apply mapIdOfEq
  intro p hp
  rcases h p hp with h1 | h1
  · simp [h1]
  · by_cases hc : p.1 ∈ themeSlugs
    · simp [hc]
    · rw [setStatus_self p.2 "uninteresting" h1]
      split <;> rfl

theorem readStoreMap_id (m : List (String × GroupDownloadInfo))
    (h : ∀ p ∈ m, p.2.status ≠ "unknown") :
    readStoreMapModel m = m := by
  apply mapIdOfEq
  intro p hp
  simp [readEntryModel, h p hp]

/-- Claim C9: running the orchestrator twice in a row with no flags
set, over an unchanged candidate list and an unchanged, internally
consistent upstream (the metadata timestamp the downloader records for
an item equals the item's list timestamp, and candidate items carry
non-empty slugs), performs zero downloader invocations the second time,
skips every item, and leaves the status map exactly as the first run
left it, so the persisted store differs only in its top-level
timestamp. -/
theorem orchestrator_idempotent (proc : String → Bool → GroupDownloadInfo)
    (loaded : List (String × GroupDownloadInfo)) (items : List ThemeItem)
    (hnd : (loaded.map Prod.fst).Nodup)
    (hs : ∀ it ∈ items, ∃ s, it.slug = some s ∧ s ≠ "")
    (hst : ∀ s b, (proc s b).status ∈ (["full", "partial", "failed"] : List String))
    (hlut : ∀ it ∈ items, ∀ s, it.slug = some s →
      ∀ b, (proc s b).last_updated_time = it.last_updated_time) :
    (downloadFilesRun ⟨false, false, false, false⟩ (extractSlugs items) proc
        (readStoreMapModel
          (downloadFilesRun ⟨false, false, false, false⟩ (extractSlugs items) proc
            loaded items).map)
        items).map =
      (downloadFilesRun ⟨false, false, false, false⟩ (extractSlugs items) proc
        loaded items).map ∧
    (downloadFilesRun ⟨false, false, false, false⟩ (extractSlugs items) proc
        (readStoreMapModel
          (downloadFilesRun ⟨false, false, false, false⟩ (extractSlugs items) proc
            loaded items).map)
        items).downloads = 0 ∧
    (downloadFilesRun ⟨false, false, false, false⟩ (extractSlugs items) proc
        (readStoreMapModel
          (downloadFilesRun ⟨false, false, false, false⟩ (extractSlugs items) proc
            loaded items).map)
        items).skipped = items.length := by
  set F : RunFlags := ⟨false, false, false, false⟩ with hF
  set slugs := extractSlugs items with hslugs
  set run1 := downloadFilesRun F slugs proc loaded items with hrun1
  have hl : ∀ j ∈ items, ∀ sj, j.slug = some sj → sj ∈ slugs := by
    intro j hj sj hsl
    obtain ⟨s, hsl', hne⟩ := hs j hj
    have hsj : sj = s := Option.some.inj (hsl.symm.trans hsl')
    subst hsj
    exact mem_extractSlugs_of items j hj sj hsl hne
  have hgood : ∀ it ∈ items, goodForItem run1.map it := by
    rw [hrun1]
    exact run1_all_good proc hst slugs loaded items hlut hs
  have hP1 : ∀ p ∈ run1.map, p.1 ∈ slugs ∨ p.2.status = "uninteresting" := by
    rw [hrun1, downloadFilesRun]
    exact fold_mem_inv F proc slugs items hl _
      (fun p hp => mem_markUninteresting slugs loaded p hp)
  have hnodup1 : (run1.map.map Prod.fst).Nodup := by
    rw [hrun1, downloadFilesRun]
    apply fold_keys_nodup
    show ((markUninteresting slugs loaded).map Prod.fst).Nodup
    rw [markUninteresting_keys]
    exact hnd
  have hnoUnknown : ∀ p ∈ run1.map, p.2.status ≠ "unknown" := by
    intro p hp
    rcases hP1 p hp with h1 | h1
    · rcases of_mem_extractSlugs items p.1 h1 with ⟨it, hit, hslug⟩
      obtain ⟨s, e, hslug', hget, htrig, hdec⟩ := hgood it hit
      have hse : s = p.1 := Option.some.inj (hslug'.symm.trans hslug)
      subst hse
      have hpe : alGet run1.map p.1 = some p.2 :=
        alGet_of_mem_nodup run1.map hnodup1 p hp
      have hep : e = p.2 := Option.some.inj (hget.symm.trans hpe)
      rw [hep] at hdec
      exact decision_not_unknown p.2 hdec
    · rw [h1]
      decide
  have hread := readStoreMap_id run1.map hnoUnknown
  have hmark := markUninteresting_id slugs run1.map hP1
  have hrun2 : downloadFilesRun F slugs proc (readStoreMapModel run1.map) items =
      items.foldl (downloadFilesStep F proc)
        { map := run1.map, downloads := 0, skipped := 0, success := 0, failure := 0,
          soFar := 0 } := by
    rw [downloadFilesRun, hread, hmark]
  have hfold := fold_skips proc items
    { map := run1.map, downloads := 0, skipped := 0, success := 0, failure := 0,
      soFar := 0 }
    (fun it hit => hgood it hit)
  refine ⟨?_, ?_, ?_⟩
  · rw [hrun2]
    exact hfold.1
  · rw [hrun2]
    exact hfold.2.1
  · rw [hrun2]
    simpa using hfold.2.2

theorem orchestrator_idempotent_witness :
    (downloadFilesRun ⟨false, false, false, false⟩
        (extractSlugs [⟨some "abc", some "2024-01-01"⟩])
        (fun _ _ => ⟨"partial", 5, some "2024-01-01", []⟩)
        (readStoreMapModel
          (downloadFilesRun ⟨false, false, false, false⟩
            (extractSlugs [⟨some "abc", some "2024-01-01"⟩])
            (fun _ _ => ⟨"partial", 5, some "2024-01-01", []⟩)
            [] [⟨some "abc", some "2024-01-01"⟩]).map)
        [⟨some "abc", some "2024-01-01"⟩]).downloads = 0 ∧
    (downloadFilesRun ⟨false, false, false, false⟩
        (extractSlugs [⟨some "abc", some "2024-01-01"⟩])
        (fun _ _ => ⟨"partial", 5, some "2024-01-01", []⟩)
        (readStoreMapModel
          (downloadFilesRun ⟨false, false, false, false⟩
            (extractSlugs [⟨some "abc", some "2024-01-01"⟩])
            (fun _ _ => ⟨"partial", 5, some "2024-01-01", []⟩)
            [] [⟨some "abc", some "2024-01-01"⟩]).map)
        [⟨some "abc", some "2024-01-01"⟩]).skipped =
      [(⟨some "abc", some "2024-01-01"⟩ : ThemeItem)].length := by
  have h := orchestrator_idempotent
      (fun _ _ => ⟨"partial", 5, some "2024-01-01", []⟩)
      [] [⟨some "abc", some "2024-01-01"⟩]
      (by simp)
      (by
        intro it hit
        simp only [List.mem_singleton] at hit
        subst hit
        exact ⟨"abc", rfl, by decide⟩)
      (by
        intro s b
        simp)
      (by
        intro it hit s hsl b
        simp only [List.mem_singleton] at hit
        subst hit
        simp only at hsl
        rw [Option.some.inj hsl.symm])
  exact ⟨h.2.1, h.2.2⟩
